import Mathlib

/-!
# TinyWebsockets client: handshake negotiation and connection state

A shallow embedding of `src/websockets_client.cpp`.

* C++ `String` values are lists of characters, indexed from zero.
* The response-header tokenizer keeps the source's index `idx`; each `while`
  loop is a recursion on a step budget that the caller sets to the number of
  characters that are left, which is what the loop can consume at most.
* The transport, the frame endpoint, the crypto helpers and the user callback
  are collaborators outside this file: they are fields of `Collab`, transition
  functions over an abstract world state, and every call the client makes to
  one of them is recorded in a trace.
-/

namespace websockets

/-! ## Strings -/

/-- A C++ `String`: a sequence of characters. -/
abbrev Str := List Char

/-- The line terminator of the HTTP header block. -/
def crlf : Str := ['\r', '\n']

/-! ## Response header tokenizer (source lines 36-76) -/

/-- Source `isWhitespace` (lines 36-38). -/
def isWhitespace (ch : Char) : Bool :=
  ch == ' ' || ch == '\t' || ch == '\r' || ch == '\n'

/-- The condition `responseHeaders[idx] != ':'` of the key loop (line 51). -/
def notColon (ch : Char) : Bool := ch != ':'

/-- The loop `while(idx < s.size() && p(s[idx])) acc += s[idx++];` of lines 51 and 58.
The first argument bounds the number of iterations; callers pass
`s.length - idx`. -/
def readWhile (p : Char → Bool) (s : Str) : Nat → Nat → Str → Nat × Str
  | 0, idx, acc => (idx, acc)
  | n + 1, idx, acc =>
    if h : idx < s.length then
      if p (s.get ⟨idx, h⟩) then readWhile p s n (idx + 1) (acc ++ [s.get ⟨idx, h⟩])
      else (idx, acc)
    else (idx, acc)

/-- The loop `while(idx < s.size() && p(s[idx])) idx++;` of lines 55 and 61. -/
def skipWhile (p : Char → Bool) (s : Str) : Nat → Nat → Nat
  | 0, idx => idx
  | n + 1, idx =>
    if h : idx < s.length then
      if p (s.get ⟨idx, h⟩) then skipWhile p s n (idx + 1) else idx
    else idx

/-- The result variables of `parseHandshakeResponse` that live across iterations
of the outer loop (lines 45-46). -/
structure Recognized where
  didUpgradeToWebsockets : Bool
  isConnectionUpgraded : Bool
  serverAccept : Str
  deriving DecidableEq, Repr

/-- The initial values of lines 45-46. -/
def Recognized.init : Recognized :=
  { didUpgradeToWebsockets := false, isConnectionUpgraded := false, serverAccept := [] }

/-- The assignments of lines 63-69, for one `key`/`value` pair. -/
def recordHeader (r : Recognized) (key value : Str) : Recognized :=
  if key = "Upgrade".toList then
    { r with didUpgradeToWebsockets := decide (value = "websocket".toList) }
  else if key = "Connection".toList then
    { r with isConnectionUpgraded := decide (value = "Upgrade".toList) }
  else if key = "Sec-WebSocket-Accept".toList then
    { r with serverAccept := value }
  else r

/-- One iteration of the outer loop, the body of lines 49-69, on the pair of the
result variables and `idx`. -/
def parseIter (s : Str) (st : Recognized × Nat) : Recognized × Nat :=
  let k := readWhile notColon s (s.length - st.2) st.2 []
  let i1 := k.1 + 1
  let i2 := skipWhile isWhitespace s (s.length - i1) i1
  let v := readWhile (fun ch => !isWhitespace ch) s (s.length - i2) i2 []
  let i3 := skipWhile isWhitespace s (s.length - v.1) v.1
  (recordHeader st.1 k.2 v.2, i3)

/-- The outer loop `while(idx < responseHeaders.size())` of line 48. Every
iteration moves `idx` forward, so `s.length - idx` iterations are enough. -/
def parseLoop (s : Str) : Nat → Recognized × Nat → Recognized × Nat
  | 0, st => st
  | n + 1, st => if st.2 < s.length then parseLoop s n (parseIter s st) else st

/-- Source `HandshakeResponseResult` (lines 40-43). -/
structure HandshakeResponseResult where
  isSuccess : Bool
  serverAccept : Str
  deriving DecidableEq, Repr

/-- Lines 72-75: the result built from the variables once the loop has ended. -/
def Recognized.result (r : Recognized) : HandshakeResponseResult :=
  { isSuccess := decide (r.serverAccept ≠ []) && r.didUpgradeToWebsockets && r.isConnectionUpgraded
    serverAccept := r.serverAccept }

/-- Source `parseHandshakeResponse` (lines 44-76). -/
def parseHandshakeResponse (responseHeaders : Str) : HandshakeResponseResult :=
  (parseLoop responseHeaders responseHeaders.length (Recognized.init, 0)).1.result

/-! ## Handshake request (source lines 14-34) -/

/-- Source `HandshakeRequestResult` (lines 14-17). -/
structure HandshakeRequestResult where
  requestStr : Str
  expectedAcceptKey : Str
  deriving DecidableEq, Repr

/-! ## Collaborators -/

/-- Modelled from the spec: the message types of `websockets/message.h`, which is
not part of the sources at hand: "type: one of Text, Binary, Ping, Pong, Close". -/
inductive MessageType where
  | Text
  | Binary
  | Ping
  | Pong
  | Close
  deriving DecidableEq, Repr

/-- Modelled from the spec: a `WebsocketsMessage`, a type and a payload. -/
structure WebsocketsMessage where
  type : MessageType
  data : Str
  deriving DecidableEq, Repr

/-- A call made by the client to a collaborator, or to the header tokenizer. -/
inductive Event where
  | tcpConnect (host : Str) (port : Int)
  | tcpSend (data : Str)
  | tcpReadLine
  | tcpAvailable
  | parseHeaders (text : Str)
  | endpointPing
  | endpointClose (initiator : Bool)
  | endpointSend (data : Str) (type : MessageType)
  | endpointPoll
  | endpointRecv
  | callback (msg : WebsocketsMessage)
  deriving DecidableEq, Repr

/-- The code outside `websockets_client.cpp` that the client calls, as transition
functions over a world state `σ`: the `network::TcpClient` (`connect`, `send`,
`readLine`, `available`), the base class `WebsocketsEndpoint` (`ping`, `close`,
`send`, `poll`, `recv` followed by `WebsocketsMessage::CreateFromFrame`), the
`crypto` helpers and the registered callback. `activeTestDefault` is the default
argument of `available`, which is declared in the header. -/
structure Collab (σ : Type) where
  tcpConnect : σ → Str → Int → Bool × σ
  tcpSend : σ → Str → σ
  tcpReadLine : σ → Str × σ
  tcpAvailable : σ → Bool × σ
  endpointPing : σ → σ
  endpointClose : σ → Bool → σ
  endpointSend : σ → Str → MessageType → σ
  endpointPoll : σ → Bool × σ
  endpointRecv : σ → WebsocketsMessage × σ
  callback : σ → WebsocketsMessage → σ
  /-- The nonce `crypto::base64Encode(crypto::randomBytes(16))`. -/
  randomKey : σ → Str × σ
  /-- The derivation `crypto::websocketsHandshakeEncodeKey`. -/
  websocketsHandshakeEncodeKey : Str → Str
  activeTestDefault : Bool

/-- Source `generateHandshake` (lines 18-34). -/
def generateHandshake {σ : Type} (env : Collab σ) (w : σ) (uri : Str) :
    HandshakeRequestResult × σ :=
  let key := (env.randomKey w).1
  let handshake := "GET ".toList ++ uri ++ " HTTP/1.1\r\n".toList
  let handshake := handshake ++ "Upgrade: websocket\r\n".toList
  let handshake := handshake ++ "Connection: Upgrade\r\n".toList
  let handshake := handshake ++ ("Sec-WebSocket-Key: ".toList ++ key ++ "\r\n".toList)
  let handshake := handshake ++ "Sec-WebSocket-Version: 13\r\n".toList
  let handshake := handshake ++ "\r\n".toList
  let expectedAccept := env.websocketsHandshakeEncodeKey key
  ({ requestStr := handshake, expectedAcceptKey := expectedAccept }, (env.randomKey w).2)

/-! ## The client (source lines 78-169) -/

/-- The client object: the member `_connectionOpen`, the world its collaborators
live in, and the calls made so far. -/
structure WebsocketsClient (σ : Type) where
  _connectionOpen : Bool
  world : σ
  trace : List Event

variable {σ : Type}

/-- Source `WebsocketsClient::available` (lines 141-147). -/
def WebsocketsClient.available (env : Collab σ) (c : WebsocketsClient σ) (activeTest : Bool) :
    Bool × WebsocketsClient σ :=
  let a := env.tcpAvailable c.world
  let isOpen := c._connectionOpen && a.1
  let c1 : WebsocketsClient σ :=
    { _connectionOpen := isOpen, world := a.2, trace := c.trace ++ [Event.tcpAvailable] }
  if isOpen && activeTest then
    (isOpen, { c1 with world := env.endpointPing c1.world, trace := c1.trace ++ [Event.endpointPing] })
  else (isOpen, c1)

/-- Source `WebsocketsClient::close` (lines 149-154). -/
def WebsocketsClient.close (env : Collab σ) (c : WebsocketsClient σ) : WebsocketsClient σ :=
  let a := c.available env env.activeTestDefault
  if a.1 then
    { _connectionOpen := false
      world := env.endpointClose a.2.world true
      trace := a.2.trace ++ [Event.endpointClose true] }
  else a.2

/-- Source `WebsocketsClient::_handlePing` (lines 156-158): an empty body. -/
def WebsocketsClient._handlePing (_env : Collab σ) (c : WebsocketsClient σ)
    (_msg : WebsocketsMessage) : WebsocketsClient σ := c

/-- Source `WebsocketsClient::_handlePong` (lines 160-162): an empty body. -/
def WebsocketsClient._handlePong (_env : Collab σ) (c : WebsocketsClient σ)
    (_msg : WebsocketsMessage) : WebsocketsClient σ := c

/-- Source `WebsocketsClient::_handleClose` (lines 164-169). -/
def WebsocketsClient._handleClose (env : Collab σ) (c : WebsocketsClient σ)
    (_msg : WebsocketsMessage) : WebsocketsClient σ :=
  let a := c.available env env.activeTestDefault
  if a.1 then
    { _connectionOpen := false
      world := env.endpointClose a.2.world false
      trace := a.2.trace ++ [Event.endpointClose false] }
  else a.2

/-- Source `WebsocketsClient::send` (lines 129-133). -/
def WebsocketsClient.send (env : Collab σ) (c : WebsocketsClient σ) (data : Str) :
    WebsocketsClient σ :=
  let a := c.available env env.activeTestDefault
  if a.1 then
    { a.2 with
      world := env.endpointSend a.2.world data MessageType.Text
      trace := a.2.trace ++ [Event.endpointSend data MessageType.Text] }
  else a.2

/-- Source `WebsocketsClient::sendBinary` (lines 135-139). -/
def WebsocketsClient.sendBinary (env : Collab σ) (c : WebsocketsClient σ) (data : Str) :
    WebsocketsClient σ :=
  let a := c.available env env.activeTestDefault
  if a.1 then
    { a.2 with
      world := env.endpointSend a.2.world data MessageType.Binary
      trace := a.2.trace ++ [Event.endpointSend data MessageType.Binary] }
  else a.2

/-- The literal of line 86. -/
def statusLine : Str := "HTTP/1.1 101 Switching Protocols\r\n".toList

/-- The loop of lines 93-97: read lines, appending each to the accumulated
header block, until a line equal to `"\r\n"` has been appended. The loop has no
bound in the source; here it gives up (`none`) after `fuel` lines. -/
def readHeaderLines (env : Collab σ) : Nat → σ → Str → List Event → Option (Str × σ × List Event)
  | 0, _, _, _ => none
  | fuel + 1, w, serverResponseHeaders, tr =>
    let line := env.tcpReadLine w
    let serverResponseHeaders := serverResponseHeaders ++ line.1
    if line.1 = crlf then some (serverResponseHeaders, line.2, tr ++ [Event.tcpReadLine])
    else readHeaderLines env fuel line.2 serverResponseHeaders (tr ++ [Event.tcpReadLine])

/-- Source `WebsocketsClient::connect` (lines 78-106). The result is `none` when
the header loop has not met the terminator line within `fuel` lines. -/
def WebsocketsClient.connect (env : Collab σ) (fuel : Nat) (c : WebsocketsClient σ)
    (host path : Str) (port : Int) : Option (Bool × WebsocketsClient σ) :=
  let t := env.tcpConnect c.world host port
  let c1 : WebsocketsClient σ :=
    { _connectionOpen := t.1, world := t.2, trace := c.trace ++ [Event.tcpConnect host port] }
  if !c1._connectionOpen then some (false, c1)
  else
    let handshake := generateHandshake env c1.world path
    let w2 := env.tcpSend handshake.2 handshake.1.requestStr
    let head := env.tcpReadLine w2
    let c2 : WebsocketsClient σ :=
      { c1 with
        world := head.2
        trace := c1.trace ++ [Event.tcpSend handshake.1.requestStr, Event.tcpReadLine] }
    if head.1 ≠ statusLine then some (false, c2.close env)
    else
      match readHeaderLines env fuel c2.world [] c2.trace with
      | none => none
      | some (serverResponseHeaders, w3, tr) =>
        let parsedResponse := parseHandshakeResponse serverResponseHeaders
        let c3 : WebsocketsClient σ :=
          { c2 with world := w3, trace := tr ++ [Event.parseHeaders serverResponseHeaders] }
        if parsedResponse.isSuccess == false
            || parsedResponse.serverAccept ≠ handshake.1.expectedAcceptKey then
          some (false, c3.close env)
        else some (true, c3)

/-- The dispatch of lines 117-125 for one received message. -/
def WebsocketsClient.dispatch (env : Collab σ) (c : WebsocketsClient σ)
    (msg : WebsocketsMessage) : WebsocketsClient σ :=
  if msg.type = MessageType.Binary || msg.type = MessageType.Text then
    { c with world := env.callback c.world msg, trace := c.trace ++ [Event.callback msg] }
  else if msg.type = MessageType.Ping then c._handlePing env msg
  else if msg.type = MessageType.Pong then c._handlePong env msg
  else if msg.type = MessageType.Close then c._handleClose env msg
  else c

/-- Source `WebsocketsClient::poll` (lines 112-127). The loop has no bound in the
source; here it gives up (`none`) after `fuel` iterations. -/
def WebsocketsClient.poll (env : Collab σ) : Nat → WebsocketsClient σ → Option (WebsocketsClient σ)
  | 0, _ => none
  | fuel + 1, c =>
    let a := c.available env env.activeTestDefault
    if !a.1 then some a.2
    else
      let p := env.endpointPoll a.2.world
      let c1 : WebsocketsClient σ :=
        { a.2 with world := p.2, trace := a.2.trace ++ [Event.endpointPoll] }
      if !p.1 then some c1
      else
        let m := env.endpointRecv c1.world
        let c2 : WebsocketsClient σ :=
          { c1 with world := m.2, trace := c1.trace ++ [Event.endpointRecv] }
        WebsocketsClient.poll env fuel (c2.dispatch env m.1)

/-! ## Reading the handshake from the transport -/

/-- Source constructor (lines 10-12): a client over the world `w`, not connected. -/
def WebsocketsClient.new (w : σ) : WebsocketsClient σ :=
  { _connectionOpen := false, world := w, trace := [] }

/-- The line that call number `k` of `readLine` returns (counting from zero) when
the reading starts in the world `w`. -/
def nthLine (env : Collab σ) : Nat → σ → Str
  | 0, w => (env.tcpReadLine w).1
  | k + 1, w => nthLine env k (env.tcpReadLine w).2

/-- The lines number `0` to `k` read from the world `w`, one after the other. -/
def linesUpTo (env : Collab σ) : Nat → σ → Str
  | 0, w => (env.tcpReadLine w).1
  | k + 1, w => (env.tcpReadLine w).1 ++ linesUpTo env k (env.tcpReadLine w).2

/-- The world after the lines number `0` to `k` have been read from `w`. -/
def worldAfterLines (env : Collab σ) : Nat → σ → σ
  | 0, w => (env.tcpReadLine w).2
  | k + 1, w => worldAfterLines env k (env.tcpReadLine w).2

/-- The request that `connect` generates (line 82), in the world the transport's
`connect` has left. -/
def requestOf (env : Collab σ) (c : WebsocketsClient σ) (host path : Str) (port : Int) :
    HandshakeRequestResult :=
  (generateHandshake env (env.tcpConnect c.world host port).2 path).1

/-- The world once the request has been sent (line 83). -/
def worldAfterRequest (env : Collab σ) (c : WebsocketsClient σ) (host path : Str) (port : Int) :
    σ :=
  env.tcpSend (generateHandshake env (env.tcpConnect c.world host port).2 path).2
    (requestOf env c host path port).requestStr

/-- The first line read after the request (line 85). -/
def statusRead (env : Collab σ) (c : WebsocketsClient σ) (host path : Str) (port : Int) : Str :=
  (env.tcpReadLine (worldAfterRequest env c host path port)).1

/-- The world once the first line has been read. -/
def worldAfterStatus (env : Collab σ) (c : WebsocketsClient σ) (host path : Str) (port : Int) :
    σ :=
  (env.tcpReadLine (worldAfterRequest env c host path port)).2

/-- The client once the first line has been read (lines 79-85). -/
def clientAfterStatus (env : Collab σ) (c : WebsocketsClient σ) (host path : Str) (port : Int) :
    WebsocketsClient σ :=
  { _connectionOpen := (env.tcpConnect c.world host port).1
    world := worldAfterStatus env c host path port
    trace := c.trace ++ [Event.tcpConnect host port]
      ++ [Event.tcpSend (requestOf env c host path port).requestStr, Event.tcpReadLine] }

/-- The header block that `connect` has accumulated when line number `k` after the
first line is the one that ends the loop of lines 93-97. -/
def headerBlock (env : Collab σ) (c : WebsocketsClient σ) (host path : Str) (port : Int)
    (k : Nat) : Str :=
  linesUpTo env k (worldAfterStatus env c host path port)

/-- The client once the header block has been read and parsed (lines 91-99), when
line number `k` after the first line ends the block. -/
def clientAfterHeaders (env : Collab σ) (c : WebsocketsClient σ) (host path : Str) (port : Int)
    (k : Nat) : WebsocketsClient σ :=
  { _connectionOpen := (env.tcpConnect c.world host port).1
    world := worldAfterLines env k (worldAfterStatus env c host path port)
    trace := (clientAfterStatus env c host path port).trace
      ++ List.replicate (k + 1) Event.tcpReadLine
      ++ [Event.parseHeaders (headerBlock env c host path port k)] }

/-- The flags of the endpoint-level close requests in a trace, in order. -/
def closeRequests (tr : List Event) : List Bool :=
  tr.filterMap (fun e => match e with
    | Event.endpointClose initiator => some initiator
    | _ => none)

/-- The number of `readLine` calls in a trace. -/
def linesRead (tr : List Event) : Nat := tr.count Event.tcpReadLine

/-- The number of runs of `parseHandshakeResponse` in a trace. -/
def parserRuns (tr : List Event) : Nat :=
  tr.countP (fun e => match e with
    | Event.parseHeaders _ => true
    | _ => false)

/-! ## A mock transport -/

/-- The sample nonce of RFC 6455, section 1.3. -/
def sampleKey : Str := "dGhlIHNhbXBsZSBub25jZQ==".toList

/-- The accept key that RFC 6455, section 1.3, derives from `sampleKey`. -/
def sampleAccept : Str := "s3pPLMBiTxaQ9kYGzzhZRbK+xOo=".toList

/-- A mock of the collaborators. The world is the number of lines read so far.
The transport connects, is always available, and answers with the line `status`,
then `Upgrade: websocket`, `Connection: Upgrade`, `Sec-WebSocket-Accept:` with the
value `acceptValue`, and empty lines from then on. The nonce is `sampleKey`, whose
derived accept key is `sampleAccept`. -/
def mockCollab (status acceptValue : Str) : Collab Nat where
  tcpConnect w _ _ := (true, w)
  tcpSend w _ := w
  tcpReadLine w :=
    (match w with
      | 0 => status
      | 1 => "Upgrade: websocket\r\n".toList
      | 2 => "Connection: Upgrade\r\n".toList
      | 3 => "Sec-WebSocket-Accept: ".toList ++ acceptValue ++ crlf
      | _ => crlf,
     w + 1)
  tcpAvailable w := (true, w)
  endpointPing w := w
  endpointClose w _ := w
  endpointSend w _ _ := w
  endpointPoll w := (false, w)
  endpointRecv w := ({ type := MessageType.Close, data := [] }, w)
  callback w _ := w
  randomKey w := (sampleKey, w)
  websocketsHandshakeEncodeKey key := if key = sampleKey then sampleAccept else []
  activeTestDefault := false

/-! ## The tokenizer on the text that is left

The same loop body, written on the suffix `s.drop idx` of the text instead of
on the index; `parseIter_text` and `parseLoop_text` relate the two. -/

/-- The key, the value and the text left after one iteration on the text `t`. -/
def iterText (t : Str) : Str × Str × Str :=
  let afterColon := ((t.dropWhile notColon).drop 1).dropWhile isWhitespace
  (t.takeWhile notColon,
   afterColon.takeWhile (fun ch => !isWhitespace ch),
   (afterColon.dropWhile (fun ch => !isWhitespace ch)).dropWhile isWhitespace)

/-- The outer loop on the text that is left. -/
def loopText : Nat → Recognized → Str → Recognized
  | 0, r, _ => r
  | n + 1, r, t =>
    if t = [] then r
    else loopText n (recordHeader r (iterText t).1 (iterText t).2.1) (iterText t).2.2

/-! ## Header blocks as lines -/

/-- A header line `name ++ ":" ++ pre ++ value ++ post ++ "\r\n"`: `pre` is what
stands between the colon and the value, `post` what stands between the value and
the line end. -/
structure HeaderLine where
  name : Str
  pre : Str
  value : Str
  post : Str
  deriving DecidableEq, Repr

/-- The text of a header line. -/
def HeaderLine.render (l : HeaderLine) : Str :=
  l.name ++ ':' :: (l.pre ++ (l.value ++ (l.post ++ crlf)))

/-- The text of a header block: its lines, closed by an empty line. -/
def renderBlock : List HeaderLine → Str
  | [] => crlf
  | l :: ls => l.render ++ renderBlock ls

/-- A non-empty string without space, tab, CR or LF. -/
def isToken (t : Str) : Bool := !t.isEmpty && t.all (fun ch => !isWhitespace ch)

/-- The first character exists and is a space, tab, CR or LF. -/
def startsWithWhitespace : Str → Bool
  | [] => false
  | ch :: _ => isWhitespace ch

/-- A line whose name has no colon, whose value is a token, and whose `pre` and
`post` hold whitespace only. -/
def HeaderLine.wellFormed (l : HeaderLine) : Bool :=
  l.name.all notColon && isToken l.value && l.pre.all isWhitespace && l.post.all isWhitespace

/-- The line `name ++ ": " ++ value ++ "\r\n"`. -/
def HeaderLine.plain (name value : Str) : HeaderLine :=
  { name := name, pre := [' '], value := value, post := [] }

/-- The variables after the assignments of lines 63-69 have been done for each
line in turn, with the line's name as key. -/
def recordAll (r : Recognized) (ls : List HeaderLine) : Recognized :=
  ls.foldl (fun acc l => recordHeader acc l.name l.value) r

/-- The value of the last line of the block that has the given name. -/
def lastValue (name : Str) : List HeaderLine → Option Str
  | [] => none
  | l :: ls =>
    match lastValue name ls with
    | some v => some v
    | none => if l.name = name then some l.value else none

/-- The number of lines of the block that have the given name. -/
def occurrences (name : Str) (ls : List HeaderLine) : Nat :=
  ls.countP (fun l => decide (l.name = name))

/-- Each line is written `name ++ ": " ++ value ++ "\r\n"`: one space after the
colon and nothing between the value and the line end. -/
def isPlain (l : HeaderLine) : Bool := decide (l.pre = [' ']) && decide (l.post = [])

/-- A block in which a line after the first has a name that begins with a space. -/
def leadingSpaceBlock : List HeaderLine :=
  [HeaderLine.plain "X".toList "y".toList,
   HeaderLine.plain " Upgrade".toList "websocket".toList,
   HeaderLine.plain "Connection".toList "Upgrade".toList,
   HeaderLine.plain "Sec-WebSocket-Accept".toList "k".toList]

/-- The three required header lines, with the accept value `k`. -/
def requiredBlock (k : Str) : List HeaderLine :=
  [HeaderLine.plain "Upgrade".toList "websocket".toList,
   HeaderLine.plain "Connection".toList "Upgrade".toList,
   HeaderLine.plain "Sec-WebSocket-Accept".toList k]

/-- A space or a tab. -/
def isSpaceOrTab (ch : Char) : Bool := ch == ' ' || ch == '\t'

/-- The three required header lines with the runs `a1`, `a2`, `a3` placed after
the colons and the runs `b1`, `b2`, `b3` placed after the values. -/
def paddedBlock (k a1 b1 a2 b2 a3 b3 : Str) : List HeaderLine :=
  [{ name := "Upgrade".toList, pre := a1, value := "websocket".toList, post := b1 },
   { name := "Connection".toList, pre := a2, value := "Upgrade".toList, post := b2 },
   { name := "Sec-WebSocket-Accept".toList, pre := a3, value := k, post := b3 }]

/-- The line with its value replaced. -/
def HeaderLine.withValue (l : HeaderLine) (v : Str) : HeaderLine := { l with value := v }

/-- The condition under which `connect` goes on after line 100: the negation of
`isSuccess == false || serverAccept != expectedAcceptKey`. -/
def handshakeAccepted (parsedResponse : HandshakeResponseResult) (expectedAcceptKey : Str) : Bool :=
  !(parsedResponse.isSuccess == false || parsedResponse.serverAccept != expectedAcceptKey)

/-! ## Observations on a trace, and sequences of operations -/

/-- The number of endpoint pings in a trace. -/
def pingRequests (tr : List Event) : Nat := tr.count Event.endpointPing

/-- The endpoint send calls in a trace, in order: payload and message type. -/
def sendRequests (tr : List Event) : List (Str × MessageType) :=
  tr.filterMap (fun e => match e with
    | Event.endpointSend data type => some (data, type)
    | _ => none)

/-- The messages handed to the user callback in a trace, in order. -/
def callbacks (tr : List Event) : List WebsocketsMessage :=
  tr.filterMap (fun e => match e with
    | Event.callback msg => some msg
    | _ => none)

/-- The number of calls of the endpoint's `poll` in a trace. -/
def endpointPolls (tr : List Event) : Nat := tr.count Event.endpointPoll

/-- The number of calls of the endpoint's `recv` in a trace. -/
def received (tr : List Event) : Nat := tr.count Event.endpointRecv

/-- An operation of the client other than `connect`. `poll` carries the budget
of its loop. -/
inductive Op where
  | poll (fuel : Nat)
  | send (data : Str)
  | sendBinary (data : Str)
  | available (activeTest : Bool)
  | close
  | handleClose (msg : WebsocketsMessage)
  deriving DecidableEq, Repr

/-- The client after one operation; `none` when `poll` has run out of budget. -/
def applyOp (env : Collab σ) (c : WebsocketsClient σ) : Op → Option (WebsocketsClient σ)
  | Op.poll fuel => WebsocketsClient.poll env fuel c
  | Op.send data => some (c.send env data)
  | Op.sendBinary data => some (c.sendBinary env data)
  | Op.available activeTest => some (c.available env activeTest).2
  | Op.close => some (c.close env)
  | Op.handleClose msg => some (c._handleClose env msg)

/-- The client after a sequence of operations, done from left to right. -/
def runOps (env : Collab σ) : List Op → WebsocketsClient σ → Option (WebsocketsClient σ)
  | [], c => some c
  | op :: ops, c =>
    match applyOp env c op with
    | none => none
    | some c1 => runOps env ops c1

/-- A budget that lets `poll` make at least its first check. -/
def Op.hasBudget : Op → Bool
  | Op.poll fuel => decide (0 < fuel)
  | _ => true

/-- A mock of the collaborators whose transport is unavailable the first time
it is asked and available from then on. The world is the number of times the
transport has been asked; nothing is ever ready to be received. -/
def flakyCollab : Collab Nat where
  tcpConnect w _ _ := (true, w)
  tcpSend w _ := w
  tcpReadLine w := (crlf, w)
  tcpAvailable w := (decide (0 < w), w + 1)
  endpointPing w := w
  endpointClose w _ := w
  endpointSend w _ _ := w
  endpointPoll w := (false, w)
  endpointRecv w := ({ type := MessageType.Close, data := [] }, w)
  callback w _ := w
  randomKey w := (sampleKey, w)
  websocketsHandshakeEncodeKey key := if key = sampleKey then sampleAccept else []
  activeTestDefault := false

/-- The message that one iteration of `poll` receives (line 114 and 116), when
the loop condition of line 113 holds. -/
def messageReceived (env : Collab σ) (c : WebsocketsClient σ) : WebsocketsMessage :=
  (env.endpointRecv
    (env.endpointPoll (c.available env env.activeTestDefault).2.world).2).1

/-- The client of one iteration of `poll` after the loop condition has held and
the message has been received, before it is dispatched. -/
def clientAfterRecv (env : Collab σ) (c : WebsocketsClient σ) : WebsocketsClient σ :=
  { (c.available env env.activeTestDefault).2 with
    world := (env.endpointRecv
      (env.endpointPoll (c.available env env.activeTestDefault).2.world).2).2
    trace := (c.available env env.activeTestDefault).2.trace
      ++ [Event.endpointPoll] ++ [Event.endpointRecv] }

/-- A sequence with every kind of operation other than `connect`. -/
def sampleOps : List Op :=
  [Op.available true, Op.send "x".toList, Op.poll 1, Op.close,
   Op.handleClose { type := MessageType.Close, data := [] }, Op.available false,
   Op.sendBinary "y".toList, Op.poll 3]

/-- The collaborators behave as a queue of ready messages over a transport that is
available throughout: `q w` is the list of the messages that are ready in the world
`w`. The transport reports available; the endpoint's `poll` reports whether the
queue is non-empty; `recv` takes the first message off the queue; no other call
changes the queue. -/
structure QueueView (env : Collab σ) (q : σ → List WebsocketsMessage) : Prop where
  available_true : ∀ w, (env.tcpAvailable w).1 = true
  available_keeps : ∀ w, q (env.tcpAvailable w).2 = q w
  ping_keeps : ∀ w, q (env.endpointPing w) = q w
  poll_ready : ∀ w, (env.endpointPoll w).1 = !(q w).isEmpty
  poll_keeps : ∀ w, q (env.endpointPoll w).2 = q w
  recv_head : ∀ w m ms, q w = m :: ms → (env.endpointRecv w).1 = m
  recv_tail : ∀ w m ms, q w = m :: ms → q (env.endpointRecv w).2 = ms
  callback_keeps : ∀ w m, q (env.callback w m) = q w
  close_keeps : ∀ w b, q (env.endpointClose w b) = q w

/-- A message that goes to the user callback: Text or Binary. -/
def isData (m : WebsocketsMessage) : Bool :=
  decide (m.type = MessageType.Binary) || decide (m.type = MessageType.Text)

/-- A mock of the collaborators in which the world is the queue of the messages
that are ready, over a transport that is always available. -/
def queueCollab : Collab (List WebsocketsMessage) where
  tcpConnect w _ _ := (true, w)
  tcpSend w _ := w
  tcpReadLine w := (crlf, w)
  tcpAvailable w := (true, w)
  endpointPing w := w
  endpointClose w _ := w
  endpointSend w _ _ := w
  endpointPoll w := (!w.isEmpty, w)
  endpointRecv w := (w.headD { type := MessageType.Close, data := [] }, w.tail)
  callback w _ := w
  randomKey w := (sampleKey, w)
  websocketsHandshakeEncodeKey key := if key = sampleKey then sampleAccept else []
  activeTestDefault := false

/-- A Text message, for the examples. -/
def textMessage (data : Str) : WebsocketsMessage := { type := MessageType.Text, data := data }

/-- A queue of ready messages whose third message is the first Close. -/
def sampleQueue : List WebsocketsMessage :=
  [textMessage "a".toList, { type := MessageType.Ping, data := [] },
   { type := MessageType.Close, data := [] }, textMessage "b".toList]

/-- The header line `H` with the colon-free text `L` and a line end put in front of
it: read as one line, its name is `L ++ "\r\n" ++ H.name`. -/
def HeaderLine.behind (L : Str) (H : HeaderLine) : HeaderLine :=
  { H with name := L ++ crlf ++ H.name }

/-- A block in which `Upgrade` occurs twice, `websocket` first and `h2c` last. -/
def upgradeThenH2c : List HeaderLine :=
  [HeaderLine.plain "Upgrade".toList "websocket".toList,
   HeaderLine.plain "Upgrade".toList "h2c".toList,
   HeaderLine.plain "Connection".toList "Upgrade".toList,
   HeaderLine.plain "Sec-WebSocket-Accept".toList "k".toList]

/-- A block in which `Upgrade` occurs twice, `h2c` first and `websocket` last. -/
def h2cThenUpgrade : List HeaderLine :=
  [HeaderLine.plain "Upgrade".toList "h2c".toList,
   HeaderLine.plain "Upgrade".toList "websocket".toList,
   HeaderLine.plain "Connection".toList "Upgrade".toList,
   HeaderLine.plain "Sec-WebSocket-Accept".toList "k".toList]

/-! ## The character accesses of the tokenizer -/

/-- The indices at which the loop `while(idx < s.size() && p(s[idx])) ...` reads a
character of `s`, in order: `s[idx]` is read each time the first half of the
condition holds (in `readWhile` the body reads the same index once more). The
budget is the one of `readWhile` and `skipWhile`. -/
def loopAccesses (p : Char → Bool) (s : Str) : Nat → Nat → List Nat
  | 0, _ => []
  | n + 1, idx =>
    if h : idx < s.length then
      idx :: (if p (s.get ⟨idx, h⟩) then loopAccesses p s n (idx + 1) else [])
    else []

/-- The indices at which one iteration of the outer loop, started at `idx`, reads
a character: those of its four inner loops, in order. -/
def parseIterAccesses (s : Str) (idx : Nat) : List Nat :=
  let k := readWhile notColon s (s.length - idx) idx []
  let i1 := k.1 + 1
  let i2 := skipWhile isWhitespace s (s.length - i1) i1
  let v := readWhile (fun ch => !isWhitespace ch) s (s.length - i2) i2 []
  loopAccesses notColon s (s.length - idx) idx
    ++ loopAccesses isWhitespace s (s.length - i1) i1
    ++ loopAccesses (fun ch => !isWhitespace ch) s (s.length - i2) i2
    ++ loopAccesses isWhitespace s (s.length - v.1) v.1

/-- The indices at which the outer loop reads a character, with the budget of
`parseLoop`. -/
def parseAccesses (s : Str) : Nat → Recognized × Nat → List Nat
  | 0, _ => []
  | n + 1, st =>
    if st.2 < s.length then parseIterAccesses s st.2 ++ parseAccesses s n (parseIter s st)
    else []

/-- The transport, read from the world `w` on, returns the lines of the block `ls`
one by one, each by one `readLine`, and then the empty line that closes the
block. -/
def deliversBlock (env : Collab σ) : List HeaderLine → σ → Bool
  | [], w => decide ((env.tcpReadLine w).1 = crlf)
  | l :: ls, w =>
    decide ((env.tcpReadLine w).1 = l.render) && deliversBlock env ls (env.tcpReadLine w).2

/-- A mock of the collaborators whose transport connects, is always available,
and answers with the line `status`, then with the lines of the block `ls` one by
one, and with empty lines from then on. The world is the number of lines read so
far; the nonce is `sampleKey`, whose derived accept key is `sampleAccept`. -/
def blockCollab (status : Str) (ls : List HeaderLine) : Collab Nat where
  tcpConnect w _ _ := (true, w)
  tcpSend w _ := w
  tcpReadLine w :=
    (match w with
      | 0 => status
      | n + 1 => ((ls.get? n).map HeaderLine.render).getD crlf,
     w + 1)
  tcpAvailable w := (true, w)
  endpointPing w := w
  endpointClose w _ := w
  endpointSend w _ _ := w
  endpointPoll w := (false, w)
  endpointRecv w := ({ type := MessageType.Close, data := [] }, w)
  callback w _ := w
  randomKey w := (sampleKey, w)
  websocketsHandshakeEncodeKey key := if key = sampleKey then sampleAccept else []
  activeTestDefault := false

/-- A well-formed block with the three required names in another order and one
further header, whose accept value is `sampleAccept` with its last character
changed. -/
def wrongAcceptBlock : List HeaderLine :=
  [HeaderLine.plain "Sec-WebSocket-Accept".toList "s3pPLMBiTxaQ9kYGzzhZRbK+xOo-".toList,
   HeaderLine.plain "Server".toList "tiny".toList,
   HeaderLine.plain "Connection".toList "Upgrade".toList,
   HeaderLine.plain "Upgrade".toList "websocket".toList]

theorem readWhile_eq (p : Char → Bool) (s : Str) : ∀ (n idx : Nat) (acc : Str),
    s.length - idx ≤ n →
    readWhile p s n idx acc
      = (idx + ((s.drop idx).takeWhile p).length, acc ++ (s.drop idx).takeWhile p) := by
  intro n
  induction n with
  | zero =>
    intro idx acc h
    have h2 : s.length ≤ idx := by omega
    simp [readWhile, List.drop_eq_nil_of_le h2]
  | succ n ih =>
    intro idx acc h
    unfold readWhile
    by_cases hlt : idx < s.length
    · rw [dif_pos hlt, List.drop_eq_getElem_cons hlt]
      by_cases hp : p (s.get ⟨idx, hlt⟩) = true
      · rw [if_pos hp, ih (idx + 1) _ (by omega)]
        have hp2 : p s[idx] = true := by simpa using hp
        rw [List.takeWhile_cons, if_pos hp2]
        simp only [List.length_cons, List.append_assoc, List.singleton_append, Prod.mk.injEq,
          and_true]
        exact ⟨by omega, rfl⟩
      · rw [if_neg hp]
        have hp2 : ¬ p s[idx] = true := by simpa using hp
        rw [List.takeWhile_cons, if_neg hp2]
        simp
    · rw [dif_neg hlt]
      simp [List.drop_eq_nil_of_le (Nat.le_of_not_lt hlt)]

theorem skipWhile_eq (p : Char → Bool) (s : Str) : ∀ (n idx : Nat),
    s.length - idx ≤ n →
    skipWhile p s n idx = idx + ((s.drop idx).takeWhile p).length := by
  intro n
  induction n with
  | zero =>
    intro idx h
    have h2 : s.length ≤ idx := by omega
    simp [skipWhile, List.drop_eq_nil_of_le h2]
  | succ n ih =>
    intro idx h
    unfold skipWhile
    by_cases hlt : idx < s.length
    · rw [dif_pos hlt, List.drop_eq_getElem_cons hlt]
      by_cases hp : p (s.get ⟨idx, hlt⟩) = true
      · rw [if_pos hp, ih (idx + 1) (by omega)]
        have hp2 : p s[idx] = true := by simpa using hp
        rw [List.takeWhile_cons, if_pos hp2]
        simp only [List.length_cons]
        omega
      · rw [if_neg hp]
        have hp2 : ¬ p s[idx] = true := by simpa using hp
        rw [List.takeWhile_cons, if_neg hp2]
        simp
    · rw [dif_neg hlt]
      simp [List.drop_eq_nil_of_le (Nat.le_of_not_lt hlt)]

theorem drop_takeWhile_length (p : Char → Bool) (t : Str) :
    t.drop (t.takeWhile p).length = t.dropWhile p := by
  induction t with
  | nil => simp
  | cons a t ih =>
    by_cases h : p a = true
    · simp [List.takeWhile_cons, List.dropWhile_cons, h, ih]
    · simp [List.takeWhile_cons, List.dropWhile_cons, h]

theorem drop_add_takeWhile (p : Char → Bool) (s : Str) (idx : Nat) :
    s.drop (idx + ((s.drop idx).takeWhile p).length) = (s.drop idx).dropWhile p := by
  rw [← drop_takeWhile_length p (s.drop idx), List.drop_drop, Nat.add_comm]

theorem drop_add_of_eq (p : Char → Bool) (s t : Str) (idx : Nat) (h : s.drop idx = t) :
    s.drop (idx + (t.takeWhile p).length) = t.dropWhile p := by
  subst h
  exact drop_add_takeWhile p s idx

theorem parseIter_text (s : Str) (st : Recognized × Nat) :
    (parseIter s st).1 = recordHeader st.1 (iterText (s.drop st.2)).1 (iterText (s.drop st.2)).2.1
    ∧ s.drop (parseIter s st).2 = (iterText (s.drop st.2)).2.2 := by
  simp only [parseIter, iterText]
  rw [readWhile_eq _ _ _ _ _ (le_refl _), skipWhile_eq _ _ _ _ (le_refl _),
    readWhile_eq _ _ _ _ _ (le_refl _), skipWhile_eq _ _ _ _ (le_refl _)]
  simp only [List.nil_append]
  have h1 : s.drop (st.2 + ((s.drop st.2).takeWhile notColon).length + 1)
      = ((s.drop st.2).dropWhile notColon).drop 1 := by
    rw [← drop_add_takeWhile, List.drop_drop]
  rw [h1]
  have h2 := drop_add_of_eq isWhitespace s _ _ h1
  rw [h2]
  have h3 := drop_add_of_eq (fun ch => !isWhitespace ch) s _ _ h2
  rw [h3]
  have h4 := drop_add_of_eq isWhitespace s _ _ h3
  rw [h4]
  exact ⟨rfl, rfl⟩

theorem parseLoop_text (s : Str) : ∀ (n : Nat) (st : Recognized × Nat),
    (parseLoop s n st).1 = loopText n st.1 (s.drop st.2) := by
  intro n
  induction n with
  | zero => intro st; rfl
  | succ n ih =>
    intro st
    unfold parseLoop loopText
    by_cases h : st.2 < s.length
    · have hne : s.drop st.2 ≠ [] := by
        intro h0
        have := List.drop_eq_nil_iff.mp h0
        omega
      rw [if_pos h, if_neg hne, ih, (parseIter_text s st).1, (parseIter_text s st).2]
    · have he : s.drop st.2 = [] := List.drop_eq_nil_of_le (Nat.le_of_not_lt h)
      rw [if_neg h, if_pos he]

theorem parseIter_advances (s : Str) (st : Recognized × Nat) :
    st.2 + 1 ≤ (parseIter s st).2 := by
  simp only [parseIter]
  rw [readWhile_eq _ _ _ _ _ (le_refl _), skipWhile_eq _ _ _ _ (le_refl _),
    readWhile_eq _ _ _ _ _ (le_refl _), skipWhile_eq _ _ _ _ (le_refl _)]
  simp only
  omega

theorem parseLoop_exit (s : Str) : ∀ (n : Nat) (st : Recognized × Nat),
    s.length - st.2 ≤ n → s.length ≤ (parseLoop s n st).2 := by
  intro n
  induction n with
  | zero =>
    intro st h
    simp only [parseLoop]
    omega
  | succ n ih =>
    intro st h
    unfold parseLoop
    by_cases hlt : st.2 < s.length
    · rw [if_pos hlt]
      have hadv := parseIter_advances s st
      exact ih _ (by omega)
    · rw [if_neg hlt]
      omega

theorem parseLoop_fuel (s : Str) : ∀ (n m : Nat) (st : Recognized × Nat),
    s.length - st.2 ≤ n → n ≤ m → parseLoop s m st = parseLoop s n st := by
  intro n
  induction n with
  | zero =>
    intro m st h _
    have hge : ¬ st.2 < s.length := by omega
    cases m with
    | zero => rfl
    | succ m => simp [parseLoop, hge]
  | succ n ih =>
    intro m st h hm
    cases m with
    | zero => omega
    | succ m =>
      unfold parseLoop
      by_cases hlt : st.2 < s.length
      · rw [if_pos hlt, if_pos hlt]
        have hadv := parseIter_advances s st
        exact ih m _ (by omega) (by omega)
      · rw [if_neg hlt, if_neg hlt]

theorem parseHandshakeResponse_text (s : Str) :
    parseHandshakeResponse s = (loopText s.length Recognized.init s).result := by
  unfold parseHandshakeResponse
  rw [parseLoop_text]
  rfl

/-! ## The tokenizer on a block of lines -/

theorem blank_then_crlf (post rest : Str) (h : ∀ c ∈ post, isWhitespace c = true) :
    (post ++ (crlf ++ rest)).takeWhile (fun ch => !isWhitespace ch) = []
    ∧ (post ++ (crlf ++ rest)).dropWhile (fun ch => !isWhitespace ch) = post ++ (crlf ++ rest) := by
  cases post with
  | nil => exact ⟨rfl, rfl⟩
  | cons c cs =>
    have hc : isWhitespace c = true := h c (List.mem_cons_self _ _)
    simp [List.takeWhile_cons, List.dropWhile_cons, hc]

theorem token_parts (v : Str) (h : isToken v = true) :
    v ≠ [] ∧ ∀ c ∈ v, isWhitespace c = false := by
  unfold isToken at h
  simp only [Bool.and_eq_true, Bool.not_eq_true', List.all_eq_true] at h
  refine ⟨?_, fun c hc => by simpa using h.2 c hc⟩
  intro h0
  subst h0
  simp at h

theorem dropWhile_token (v rest : Str) (h : isToken v = true) :
    (v ++ rest).dropWhile isWhitespace = v ++ rest := by
  obtain ⟨hne, hall⟩ := token_parts v h
  cases v with
  | nil => exact absurd rfl hne
  | cons c cs =>
    have hc : isWhitespace c = false := hall c (List.mem_cons_self _ _)
    simp [List.dropWhile_cons, hc]

theorem iterText_render (l : HeaderLine) (rest : Str) (h : l.wellFormed = true) :
    iterText (l.render ++ rest) = (l.name, l.value, rest.dropWhile isWhitespace) := by
  unfold HeaderLine.wellFormed at h
  simp only [Bool.and_eq_true, List.all_eq_true] at h
  obtain ⟨⟨⟨hname, hval⟩, hpre⟩, hpost⟩ := h
  obtain ⟨_, hv⟩ := token_parts l.value hval
  have hcolon : notColon ':' = false := by decide
  have e0 : l.render ++ rest
      = l.name ++ (':' :: (l.pre ++ (l.value ++ (l.post ++ (crlf ++ rest))))) := by
    simp [HeaderLine.render]
  have e1 : (l.render ++ rest).takeWhile notColon = l.name := by
    rw [e0, List.takeWhile_append_of_pos hname, List.takeWhile_cons, hcolon]
    simp
  have e2 : (l.render ++ rest).dropWhile notColon
      = ':' :: (l.pre ++ (l.value ++ (l.post ++ (crlf ++ rest)))) := by
    rw [e0, List.dropWhile_append_of_pos hname, List.dropWhile_cons, hcolon]
    simp
  have e3 : (((l.render ++ rest).dropWhile notColon).drop 1).dropWhile isWhitespace
      = l.value ++ (l.post ++ (crlf ++ rest)) := by
    rw [e2, List.drop_one, List.tail_cons, List.dropWhile_append_of_pos hpre,
      dropWhile_token _ _ hval]
  have hv2 : ∀ c ∈ l.value, (fun ch => !isWhitespace ch) c = true := by
    intro c hc
    simp [hv c hc]
  have e4 : (l.value ++ (l.post ++ (crlf ++ rest))).takeWhile (fun ch => !isWhitespace ch)
      = l.value := by
    rw [List.takeWhile_append_of_pos hv2, (blank_then_crlf l.post rest hpost).1]
    simp
  have e5 : ((l.value ++ (l.post ++ (crlf ++ rest))).dropWhile
      (fun ch => !isWhitespace ch)).dropWhile isWhitespace = rest.dropWhile isWhitespace := by
    rw [List.dropWhile_append_of_pos hv2, (blank_then_crlf l.post rest hpost).2,
      List.dropWhile_append_of_pos hpost]
    simp [crlf, List.dropWhile_cons, isWhitespace]
  simp only [iterText, e1, e3, e4, e5]

theorem render_ne_nil (l : HeaderLine) (rest : Str) : l.render ++ rest ≠ [] := by
  simp [HeaderLine.render]

theorem render_length_pos (l : HeaderLine) : 0 < l.render.length := by
  simp [HeaderLine.render]

theorem dropWhile_render (l : HeaderLine) (rest : Str)
    (h : startsWithWhitespace l.name = false) :
    (l.render ++ rest).dropWhile isWhitespace = l.render ++ rest := by
  unfold HeaderLine.render
  cases hname : l.name with
  | nil => simp [List.dropWhile_cons, isWhitespace]
  | cons c cs =>
    rw [hname] at h
    have hc : isWhitespace c = false := h
    simp [List.dropWhile_cons, hc]

theorem loopText_nil (n : Nat) (r : Recognized) : loopText n r [] = r := by
  cases n <;> simp [loopText]

theorem dropWhile_renderBlock (ls : List HeaderLine)
    (h : ∀ l ∈ ls, l.wellFormed = true ∧ startsWithWhitespace l.name = false) :
    (renderBlock ls).dropWhile isWhitespace = match ls with
      | [] => []
      | l :: rest => l.render ++ renderBlock rest := by
  cases ls with
  | nil => simp [renderBlock, crlf, List.dropWhile_cons, isWhitespace]
  | cons l rest =>
    have hl := h l (List.mem_cons_self _ _)
    simp only [renderBlock]
    exact dropWhile_render l _ hl.2

theorem loopText_block : ∀ (ls : List HeaderLine) (n : Nat) (r : Recognized),
    (∀ l ∈ ls, l.wellFormed = true ∧ startsWithWhitespace l.name = false) →
    (renderBlock ls).length ≤ n →
    loopText n r ((renderBlock ls).dropWhile isWhitespace) = recordAll r ls := by
  intro ls
  induction ls with
  | nil =>
    intro n r _ _
    rw [dropWhile_renderBlock [] (by simp), loopText_nil]
    rfl
  | cons l rest ih =>
    intro n r h hlen
    rw [dropWhile_renderBlock (l :: rest) h]
    simp only
    have hl := h l (List.mem_cons_self _ _)
    have hpos := render_length_pos l
    simp only [renderBlock, List.length_append] at hlen
    cases n with
    | zero => omega
    | succ m =>
      unfold loopText
      rw [if_neg (render_ne_nil l _), iterText_render l _ hl.1]
      simp only
      rw [ih m _ (fun x hx => h x (List.mem_cons_of_mem _ hx)) (by omega)]
      rfl

theorem parse_renderBlock (ls : List HeaderLine) (hwf : ∀ l ∈ ls, l.wellFormed = true)
    (htail : ∀ l ∈ ls.tail, startsWithWhitespace l.name = false) :
    parseHandshakeResponse (renderBlock ls) = (recordAll Recognized.init ls).result := by
  rw [parseHandshakeResponse_text]
  cases ls with
  | nil => decide
  | cons l rest =>
    have hpos := render_length_pos l
    have hlen : (renderBlock (l :: rest)).length
        = ((renderBlock rest).length + l.render.length - 1) + 1 := by
      simp only [renderBlock, List.length_append]
      omega
    rw [hlen]
    unfold loopText
    simp only [renderBlock]
    rw [if_neg (render_ne_nil l _), iterText_render l _ (hwf l (List.mem_cons_self _ _))]
    simp only
    rw [loopText_block rest _ _
      (fun x hx => ⟨hwf x (List.mem_cons_of_mem _ hx), htail x hx⟩) (by omega)]
    rfl

/-! ## What a block of lines leaves in the variables -/

theorem recordHeader_didUpgrade (r : Recognized) (key value : Str) :
    (recordHeader r key value).didUpgradeToWebsockets
      = if key = "Upgrade".toList then decide (value = "websocket".toList)
        else r.didUpgradeToWebsockets := by
  unfold recordHeader
  by_cases h1 : key = "Upgrade".toList
  · rw [if_pos h1, if_pos h1]
  · rw [if_neg h1, if_neg h1]
    split_ifs <;> rfl

theorem recordHeader_isConnection (r : Recognized) (key value : Str) :
    (recordHeader r key value).isConnectionUpgraded
      = if key = "Connection".toList then decide (value = "Upgrade".toList)
        else r.isConnectionUpgraded := by
  unfold recordHeader
  by_cases h1 : key = "Upgrade".toList
  · have h2 : key ≠ "Connection".toList := by rw [h1]; decide
    rw [if_pos h1, if_neg h2]
  · rw [if_neg h1]
    by_cases h2 : key = "Connection".toList
    · rw [if_pos h2, if_pos h2]
    · rw [if_neg h2, if_neg h2]
      split_ifs <;> rfl

theorem recordHeader_serverAccept (r : Recognized) (key value : Str) :
    (recordHeader r key value).serverAccept
      = if key = "Sec-WebSocket-Accept".toList then value else r.serverAccept := by
  unfold recordHeader
  by_cases h1 : key = "Upgrade".toList
  · have h2 : key ≠ "Sec-WebSocket-Accept".toList := by rw [h1]; decide
    rw [if_pos h1, if_neg h2]
  · rw [if_neg h1]
    by_cases h2 : key = "Connection".toList
    · have h3 : key ≠ "Sec-WebSocket-Accept".toList := by rw [h2]; decide
      rw [if_pos h2, if_neg h3]
    · rw [if_neg h2]
      split_ifs <;> rfl

theorem recordAll_cons (r : Recognized) (l : HeaderLine) (ls : List HeaderLine) :
    recordAll r (l :: ls) = recordAll (recordHeader r l.name l.value) ls := rfl

theorem lastValue_cons (name : Str) (l : HeaderLine) (ls : List HeaderLine) :
    lastValue name (l :: ls)
      = match lastValue name ls with
        | some v => some v
        | none => if l.name = name then some l.value else none := rfl

theorem recordAll_didUpgrade : ∀ (ls : List HeaderLine) (r : Recognized),
    (recordAll r ls).didUpgradeToWebsockets
      = match lastValue "Upgrade".toList ls with
        | some v => decide (v = "websocket".toList)
        | none => r.didUpgradeToWebsockets := by
  intro ls
  induction ls with
  | nil => intro r; rfl
  | cons l ls ih =>
    intro r
    rw [recordAll_cons, ih, recordHeader_didUpgrade, lastValue_cons]
    cases lastValue "Upgrade".toList ls with
    | some v => rfl
    | none =>
      by_cases h : l.name = "Upgrade".toList
      · simp only [h, if_true]
      · simp only [h, if_false]

theorem recordAll_isConnection : ∀ (ls : List HeaderLine) (r : Recognized),
    (recordAll r ls).isConnectionUpgraded
      = match lastValue "Connection".toList ls with
        | some v => decide (v = "Upgrade".toList)
        | none => r.isConnectionUpgraded := by
  intro ls
  induction ls with
  | nil => intro r; rfl
  | cons l ls ih =>
    intro r
    rw [recordAll_cons, ih, recordHeader_isConnection, lastValue_cons]
    cases lastValue "Connection".toList ls with
    | some v => rfl
    | none =>
      by_cases h : l.name = "Connection".toList
      · simp only [h, if_true]
      · simp only [h, if_false]

theorem recordAll_serverAccept : ∀ (ls : List HeaderLine) (r : Recognized),
    (recordAll r ls).serverAccept
      = match lastValue "Sec-WebSocket-Accept".toList ls with
        | some v => v
        | none => r.serverAccept := by
  intro ls
  induction ls with
  | nil => intro r; rfl
  | cons l ls ih =>
    intro r
    rw [recordAll_cons, ih, recordHeader_serverAccept, lastValue_cons]
    cases lastValue "Sec-WebSocket-Accept".toList ls with
    | some v => rfl
    | none =>
      by_cases h : l.name = "Sec-WebSocket-Accept".toList
      · simp only [h, if_true]
      · simp only [h, if_false]

theorem lastValue_eq_none (name : Str) : ∀ (ls : List HeaderLine),
    lastValue name ls = none ↔ ∀ l ∈ ls, l.name ≠ name := by
  intro ls
  induction ls with
  | nil => simp [lastValue]
  | cons l ls ih =>
    rw [lastValue_cons]
    cases h : lastValue name ls with
    | some v =>
      simp only [false_iff, reduceCtorEq]
      intro hall
      have : lastValue name ls = none := ih.mpr (fun x hx => hall x (List.mem_cons_of_mem _ hx))
      rw [h] at this
      cases this
    | none =>
      have hls := ih.mp h
      by_cases hn : l.name = name
      · simp [hn]
      · simp only [hn, if_false, true_iff]
        intro x hx
        rcases List.mem_cons.mp hx with rfl | hx
        · exact hn
        · exact hls x hx

theorem lastValue_mem (name : Str) : ∀ (ls : List HeaderLine) (v : Str),
    lastValue name ls = some v → ∃ l ∈ ls, l.name = name ∧ l.value = v := by
  intro ls
  induction ls with
  | nil => intro v h; cases h
  | cons l ls ih =>
    intro v
    rw [lastValue_cons]
    cases h : lastValue name ls with
    | some w =>
      intro hw
      simp only [Option.some.injEq] at hw
      subst hw
      obtain ⟨x, hx, hxn, hxv⟩ := ih _ h
      exact ⟨x, List.mem_cons_of_mem _ hx, hxn, hxv⟩
    | none =>
      by_cases hn : l.name = name
      · simp only [hn, if_true, Option.some.injEq]
        intro hv
        exact ⟨l, List.mem_cons_self _ _, hn, hv⟩
      · simp [hn]

theorem occurrences_zero (name : Str) (ls : List HeaderLine) (h : occurrences name ls = 0) :
    ∀ l ∈ ls, l.name ≠ name := by
  unfold occurrences at h
  rw [List.countP_eq_zero] at h
  intro l hl
  simpa using h l hl

theorem lastValue_of_mem (name : Str) : ∀ (ls : List HeaderLine),
    occurrences name ls ≤ 1 → ∀ l ∈ ls, l.name = name → lastValue name ls = some l.value := by
  intro ls
  induction ls with
  | nil => intro _ l hl; cases hl
  | cons x ls ih =>
    intro hocc l hl hn
    unfold occurrences at hocc
    rw [List.countP_cons] at hocc
    rw [lastValue_cons]
    by_cases hx : x.name = name
    · have h0 : occurrences name ls = 0 := by
        unfold occurrences
        simp only [hx, decide_True, if_true] at hocc
        omega
      have hnone := (lastValue_eq_none name ls).mpr (occurrences_zero name ls h0)
      rw [hnone]
      rcases List.mem_cons.mp hl with rfl | hl2
      · simp [hx]
      · exact absurd hn (occurrences_zero name ls h0 l hl2)
    · rcases List.mem_cons.mp hl with rfl | hl2
      · exact absurd hn hx
      · have h1 : occurrences name ls ≤ 1 := by
          unfold occurrences
          omega
        rw [ih h1 l hl2 hn]

theorem parse_block_lastValue (ls : List HeaderLine) (hwf : ∀ l ∈ ls, l.wellFormed = true)
    (htail : ∀ l ∈ ls.tail, startsWithWhitespace l.name = false) :
    parseHandshakeResponse (renderBlock ls)
      = { isSuccess :=
            decide ((lastValue "Sec-WebSocket-Accept".toList ls).getD [] ≠ [])
              && decide (lastValue "Upgrade".toList ls = some "websocket".toList)
              && decide (lastValue "Connection".toList ls = some "Upgrade".toList)
          serverAccept := (lastValue "Sec-WebSocket-Accept".toList ls).getD [] } := by
  rw [parse_renderBlock ls hwf htail]
  unfold Recognized.result
  rw [recordAll_didUpgrade, recordAll_isConnection, recordAll_serverAccept]
  cases lastValue "Sec-WebSocket-Accept".toList ls <;>
    cases lastValue "Upgrade".toList ls <;>
    cases lastValue "Connection".toList ls <;>
    simp [Recognized.init]

theorem wellFormed_of_plain (l : HeaderLine) (hp : isPlain l = true)
    (hn : l.name.all notColon = true) (hv : isToken l.value = true) : l.wellFormed = true := by
  unfold isPlain at hp
  simp only [Bool.and_eq_true, decide_eq_true_eq] at hp
  unfold HeaderLine.wellFormed
  rw [hn, hv, hp.1, hp.2]
  decide

/-! ## Claims about `parseHandshakeResponse` -/

/-- C1, as stated, fails: `leadingSpaceBlock` meets every condition the claim puts
on a well-formed block (plain lines, names without a colon, token values, each
recognised name at most once), none of its lines is named `Upgrade` (the second
line is named ` Upgrade`, with a leading space), and yet `parseHandshakeResponse`
returns `isSuccess = true`: the whitespace skipped after a value swallows the
leading space of the next name. -/
theorem c1_leading_space_counterexample :
    (∀ l ∈ leadingSpaceBlock,
        isPlain l = true ∧ l.name.all notColon = true ∧ isToken l.value = true)
    ∧ occurrences "Upgrade".toList leadingSpaceBlock ≤ 1
    ∧ occurrences "Connection".toList leadingSpaceBlock ≤ 1
    ∧ occurrences "Sec-WebSocket-Accept".toList leadingSpaceBlock ≤ 1
    ∧ (parseHandshakeResponse (renderBlock leadingSpaceBlock)).isSuccess = true
    ∧ ¬ (∃ l ∈ leadingSpaceBlock,
          l.name = "Upgrade".toList ∧ l.value = "websocket".toList) := by
  decide

/-- C1, amended: for every block of plain lines `Name: value\r\n` closed by an
empty line, in which every name has no colon, every value is a non-empty token
without space, tab, CR or LF, each of `Upgrade`, `Connection` and
`Sec-WebSocket-Accept` occurs at most once, and no name after the first line
begins with a space, tab, CR or LF, `parseHandshakeResponse` returns `isSuccess =
true` exactly when the block has `Upgrade` with value `websocket`, `Connection`
with value `Upgrade` and a `Sec-WebSocket-Accept` line; `serverAccept` is the
value of that line when it is present and the empty string otherwise. -/
theorem c1_wellformed_block (ls : List HeaderLine)
    (hplain : ∀ l ∈ ls, isPlain l = true)
    (hname : ∀ l ∈ ls, l.name.all notColon = true)
    (hvalue : ∀ l ∈ ls, isToken l.value = true)
    (hU : occurrences "Upgrade".toList ls ≤ 1)
    (hC : occurrences "Connection".toList ls ≤ 1)
    (hA : occurrences "Sec-WebSocket-Accept".toList ls ≤ 1)
    (hlead : ∀ l ∈ ls.tail, startsWithWhitespace l.name = false) :
    ((parseHandshakeResponse (renderBlock ls)).isSuccess = true ↔
      (∃ l ∈ ls, l.name = "Upgrade".toList ∧ l.value = "websocket".toList)
      ∧ (∃ l ∈ ls, l.name = "Connection".toList ∧ l.value = "Upgrade".toList)
      ∧ (∃ l ∈ ls, l.name = "Sec-WebSocket-Accept".toList))
    ∧ (∀ l ∈ ls, l.name = "Sec-WebSocket-Accept".toList →
        (parseHandshakeResponse (renderBlock ls)).serverAccept = l.value)
    ∧ ((∀ l ∈ ls, l.name ≠ "Sec-WebSocket-Accept".toList) →
        (parseHandshakeResponse (renderBlock ls)).serverAccept = []) := by
  have hwf : ∀ l ∈ ls, l.wellFormed = true :=
    fun l hl => wellFormed_of_plain l (hplain l hl) (hname l hl) (hvalue l hl)
  rw [parse_block_lastValue ls hwf hlead]
  refine ⟨?_, ?_, ?_⟩
  · simp only [Bool.and_eq_true, decide_eq_true_eq]
    constructor
    · rintro ⟨⟨ha, hu⟩, hc⟩
      refine ⟨?_, ?_, ?_⟩
      · exact lastValue_mem _ ls _ hu
      · exact lastValue_mem _ ls _ hc
      · cases hav : lastValue "Sec-WebSocket-Accept".toList ls with
        | none => rw [hav] at ha; exact absurd rfl ha
        | some v =>
          obtain ⟨l, hl, hn, _⟩ := lastValue_mem _ ls _ hav
          exact ⟨l, hl, hn⟩
    · rintro ⟨⟨lu, hlu, hun, huv⟩, ⟨lc, hlc, hcn, hcv⟩, ⟨la, hla, han⟩⟩
      refine ⟨⟨?_, ?_⟩, ?_⟩
      · rw [lastValue_of_mem _ ls hA la hla han]
        exact (token_parts _ (hvalue la hla)).1
      · rw [lastValue_of_mem _ ls hU lu hlu hun, huv]
      · rw [lastValue_of_mem _ ls hC lc hlc hcn, hcv]
  · intro l hl hn
    simp only
    rw [lastValue_of_mem _ ls hA l hl hn]
    rfl
  · intro hnone
    simp only
    rw [(lastValue_eq_none _ ls).mpr hnone]
    rfl

/-- C1, amended, at the block of the three required lines with accept value `k`. -/
theorem c1_wellformed_block_witness :
    ((parseHandshakeResponse (renderBlock (requiredBlock "k".toList))).isSuccess = true ↔
      (∃ l ∈ requiredBlock "k".toList, l.name = "Upgrade".toList ∧ l.value = "websocket".toList)
      ∧ (∃ l ∈ requiredBlock "k".toList,
          l.name = "Connection".toList ∧ l.value = "Upgrade".toList)
      ∧ (∃ l ∈ requiredBlock "k".toList, l.name = "Sec-WebSocket-Accept".toList))
    ∧ (∀ l ∈ requiredBlock "k".toList, l.name = "Sec-WebSocket-Accept".toList →
        (parseHandshakeResponse (renderBlock (requiredBlock "k".toList))).serverAccept = l.value)
    ∧ ((∀ l ∈ requiredBlock "k".toList, l.name ≠ "Sec-WebSocket-Accept".toList) →
        (parseHandshakeResponse (renderBlock (requiredBlock "k".toList))).serverAccept = []) :=
  c1_wellformed_block (requiredBlock "k".toList) (by decide) (by decide) (by decide)
    (by decide) (by decide) (by decide) (by decide)

theorem lastValue_insert (name : Str) (x : HeaderLine) (hx : x.name ≠ name)
    (B2 : List HeaderLine) : ∀ (B1 : List HeaderLine),
    lastValue name (B1 ++ x :: B2) = lastValue name (B1 ++ B2) := by
  intro B1
  induction B1 with
  | nil =>
    simp only [List.nil_append]
    rw [lastValue_cons, if_neg hx]
    cases lastValue name B2 <;> rfl
  | cons l B1 ih =>
    simp only [List.cons_append]
    rw [lastValue_cons, lastValue_cons, ih]

theorem spaceTab_whitespace (t : Str) (h : t.all isSpaceOrTab = true) :
    t.all isWhitespace = true := by
  simp only [List.all_eq_true] at h ⊢
  intro c hc
  have := h c hc
  unfold isSpaceOrTab at this
  unfold isWhitespace
  simp only [Bool.or_eq_true] at this ⊢
  rcases this with h1 | h1
  · exact Or.inl (Or.inl (Or.inl h1))
  · exact Or.inl (Or.inl (Or.inr h1))

theorem parse_paddedBlock (k a1 b1 a2 b2 a3 b3 : Str)
    (hk : isToken k = true)
    (ha1 : a1.all isSpaceOrTab = true) (hb1 : b1.all isSpaceOrTab = true)
    (ha2 : a2.all isSpaceOrTab = true) (hb2 : b2.all isSpaceOrTab = true)
    (ha3 : a3.all isSpaceOrTab = true) (hb3 : b3.all isSpaceOrTab = true) :
    parseHandshakeResponse (renderBlock (paddedBlock k a1 b1 a2 b2 a3 b3))
      = { isSuccess := true, serverAccept := k } := by
  have hwf : ∀ l ∈ paddedBlock k a1 b1 a2 b2 a3 b3, l.wellFormed = true := by
    intro l hl
    simp only [paddedBlock, List.mem_cons, List.mem_singleton, List.not_mem_nil, or_false] at hl
    rcases hl with rfl | rfl | rfl
    · simp only [HeaderLine.wellFormed, spaceTab_whitespace _ ha1, spaceTab_whitespace _ hb1]
      decide
    · simp only [HeaderLine.wellFormed, spaceTab_whitespace _ ha2, spaceTab_whitespace _ hb2]
      decide
    · simp only [HeaderLine.wellFormed, spaceTab_whitespace _ ha3, spaceTab_whitespace _ hb3, hk]
      decide
  have hlead : ∀ l ∈ (paddedBlock k a1 b1 a2 b2 a3 b3).tail,
      startsWithWhitespace l.name = false := by
    intro l hl
    simp only [paddedBlock, List.tail_cons, List.mem_cons, List.mem_singleton,
      List.not_mem_nil, or_false] at hl
    rcases hl with rfl | rfl <;> rfl
  rw [parse_block_lastValue _ hwf hlead]
  have hA : lastValue "Sec-WebSocket-Accept".toList (paddedBlock k a1 b1 a2 b2 a3 b3)
      = some k := rfl
  have hU : lastValue "Upgrade".toList (paddedBlock k a1 b1 a2 b2 a3 b3)
      = some "websocket".toList := rfl
  have hC : lastValue "Connection".toList (paddedBlock k a1 b1 a2 b2 a3 b3)
      = some "Upgrade".toList := rfl
  rw [hA, hU, hC]
  have hne : k ≠ [] := (token_parts k hk).1
  simp [hne]

/-- C7, as stated, fails: with one space placed before the colon of the `Upgrade`
line the key read is `Upgrade ` (with the space), the header is not recognised,
and `parseHandshakeResponse` returns `isSuccess = false`. -/
theorem c7_space_before_colon_counterexample :
    parseHandshakeResponse
      "Upgrade : websocket\r\nConnection: Upgrade\r\nSec-WebSocket-Accept: k\r\n\r\n".toList
      = { isSuccess := false, serverAccept := "k".toList } := by
  decide

/-- C7, amended: for the block of the three lines `Upgrade` / `websocket`,
`Connection` / `Upgrade` and `Sec-WebSocket-Accept` / `k` (`k` a non-empty token
without whitespace), with arbitrary runs of spaces and tabs placed after the colon
and after the value of each line (none before the colon), `parseHandshakeResponse`
returns `isSuccess = true` and `serverAccept = k`. -/
theorem c7_padding_after_colon_and_value (k a1 b1 a2 b2 a3 b3 : Str)
    (hk : isToken k = true)
    (ha1 : a1.all isSpaceOrTab = true) (hb1 : b1.all isSpaceOrTab = true)
    (ha2 : a2.all isSpaceOrTab = true) (hb2 : b2.all isSpaceOrTab = true)
    (ha3 : a3.all isSpaceOrTab = true) (hb3 : b3.all isSpaceOrTab = true) :
    parseHandshakeResponse (renderBlock (paddedBlock k a1 b1 a2 b2 a3 b3))
      = { isSuccess := true, serverAccept := k } :=
  parse_paddedBlock k a1 b1 a2 b2 a3 b3 hk ha1 hb1 ha2 hb2 ha3 hb3

/-- C7, amended, with a tab and two spaces after the colons and a space or a tab
after the values. -/
theorem c7_padding_after_colon_and_value_witness :
    parseHandshakeResponse
      (renderBlock (paddedBlock "k".toList ['\t', ' '] [' '] [' ', ' '] ['\t'] [' '] []))
      = { isSuccess := true, serverAccept := "k".toList } :=
  c7_padding_after_colon_and_value "k".toList ['\t', ' '] [' '] [' ', ' '] ['\t'] [' '] []
    (by decide) (by decide) (by decide) (by decide) (by decide) (by decide) (by decide)

/-- C8, as stated, fails on the claim's own example: the three required lines are
accepted, and with the line `Date: Mon, 01 Jan 2024 00:00:00 GMT` put in front of
them the result is `isSuccess = false`. The value is read up to its first space;
what is left of it is read as further keys and values, the last of which runs into
the name of the line that follows. -/
theorem c8_date_header_counterexample :
    parseHandshakeResponse (renderBlock (requiredBlock "k".toList))
      = { isSuccess := true, serverAccept := "k".toList }
    ∧ parseHandshakeResponse
        (renderBlock (HeaderLine.plain "Date".toList "Mon, 01 Jan 2024 00:00:00 GMT".toList
          :: requiredBlock "k".toList))
      = { isSuccess := false, serverAccept := "k".toList }
    ∧ "Date".toList ≠ "Upgrade".toList ∧ "Date".toList ≠ "Connection".toList
    ∧ "Date".toList ≠ "Sec-WebSocket-Accept".toList := by
  decide

/-- C8, amended: for every block `B1 ++ B2` of plain lines whose names have no
colon and do not begin with whitespace and whose values are non-empty tokens
without whitespace, and every additional plain line `x` of the same shape whose
name is none of `Upgrade`, `Connection`, `Sec-WebSocket-Accept`, putting `x`
between `B1` and `B2` leaves the result of `parseHandshakeResponse` unchanged. -/
theorem c8_unrecognised_header_ignored (B1 B2 : List HeaderLine) (x : HeaderLine)
    (hB : ∀ l ∈ B1 ++ B2, isPlain l = true ∧ l.name.all notColon = true
      ∧ isToken l.value = true ∧ startsWithWhitespace l.name = false)
    (hx : isPlain x = true ∧ x.name.all notColon = true
      ∧ isToken x.value = true ∧ startsWithWhitespace x.name = false)
    (hxU : x.name ≠ "Upgrade".toList) (hxC : x.name ≠ "Connection".toList)
    (hxA : x.name ≠ "Sec-WebSocket-Accept".toList) :
    parseHandshakeResponse (renderBlock (B1 ++ x :: B2))
      = parseHandshakeResponse (renderBlock (B1 ++ B2)) := by
  have hB2 : ∀ l ∈ B1 ++ x :: B2, isPlain l = true ∧ l.name.all notColon = true
      ∧ isToken l.value = true ∧ startsWithWhitespace l.name = false := by
    intro l hl
    rcases List.mem_append.mp hl with h | h
    · exact hB l (List.mem_append_left _ h)
    · rcases List.mem_cons.mp h with rfl | h
      · exact hx
      · exact hB l (List.mem_append_right _ h)
  rw [parse_block_lastValue (B1 ++ x :: B2)
      (fun l hl => wellFormed_of_plain l (hB2 l hl).1 (hB2 l hl).2.1 (hB2 l hl).2.2.1)
      (fun l hl => (hB2 l (List.mem_of_mem_tail hl)).2.2.2),
    parse_block_lastValue (B1 ++ B2)
      (fun l hl => wellFormed_of_plain l (hB l hl).1 (hB l hl).2.1 (hB l hl).2.2.1)
      (fun l hl => (hB l (List.mem_of_mem_tail hl)).2.2.2),
    lastValue_insert _ x hxU, lastValue_insert _ x hxC, lastValue_insert _ x hxA]

/-- C8, amended, at the line `Server: tiny` put after the first of the three
required lines. -/
theorem c8_unrecognised_header_ignored_witness :
    parseHandshakeResponse
        (renderBlock ([HeaderLine.plain "Upgrade".toList "websocket".toList]
          ++ HeaderLine.plain "Server".toList "tiny".toList
          :: [HeaderLine.plain "Connection".toList "Upgrade".toList,
              HeaderLine.plain "Sec-WebSocket-Accept".toList "k".toList]))
      = parseHandshakeResponse
        (renderBlock ([HeaderLine.plain "Upgrade".toList "websocket".toList]
          ++ [HeaderLine.plain "Connection".toList "Upgrade".toList,
              HeaderLine.plain "Sec-WebSocket-Accept".toList "k".toList])) :=
  c8_unrecognised_header_ignored _ _ _ (by decide) (by decide) (by decide) (by decide)
    (by decide)

theorem occurrences_withValue (name : Str) (B1 B2 : List HeaderLine) (l : HeaderLine) (v : Str) :
    occurrences name (B1 ++ l.withValue v :: B2) = occurrences name (B1 ++ l :: B2) := by
  simp [occurrences, List.countP_append, List.countP_cons, HeaderLine.withValue]

theorem handshakeAccepted_iff (p : HandshakeResponseResult) (k : Str) :
    handshakeAccepted p k = true ↔ p.isSuccess = true ∧ p.serverAccept = k := by
  unfold handshakeAccepted
  cases p.isSuccess <;> simp

/-- C9, as stated, fails: in the block of the three required lines the value of
`Upgrade` is replaced by the different value `websocket x:y`, and the check used by
`connect` still succeeds, because the value is read only up to its first space
(the rest, `x:y`, is read as one more header). -/
theorem c9_different_value_counterexample :
    handshakeAccepted
        (parseHandshakeResponse (renderBlock
          [(HeaderLine.plain "Upgrade".toList "websocket".toList).withValue "websocket x:y".toList,
           HeaderLine.plain "Connection".toList "Upgrade".toList,
           HeaderLine.plain "Sec-WebSocket-Accept".toList "k".toList]))
        "k".toList = true
    ∧ "websocket x:y".toList ≠ "websocket".toList := by
  decide

/-- C9, amended: for every well-formed block of plain lines (names without a
colon, values non-empty tokens without whitespace, no name after the first line
beginning with whitespace, each recognised name at most once) that has `Upgrade:
websocket`, `Connection: Upgrade` and `Sec-WebSocket-Accept: k`, the check used by
`connect` with expected accept key `k` succeeds; and replacing the value of any
one of the three headers by a different non-empty token without whitespace makes
that check fail. -/
theorem c9_exact_values (ls : List HeaderLine) (k : Str)
    (hB : ∀ l ∈ ls, isPlain l = true ∧ l.name.all notColon = true ∧ isToken l.value = true)
    (hlead : ∀ l ∈ ls.tail, startsWithWhitespace l.name = false)
    (hU : occurrences "Upgrade".toList ls ≤ 1)
    (hC : occurrences "Connection".toList ls ≤ 1)
    (hA : occurrences "Sec-WebSocket-Accept".toList ls ≤ 1)
    (hu : ∃ l ∈ ls, l.name = "Upgrade".toList ∧ l.value = "websocket".toList)
    (hc : ∃ l ∈ ls, l.name = "Connection".toList ∧ l.value = "Upgrade".toList)
    (ha : ∃ l ∈ ls, l.name = "Sec-WebSocket-Accept".toList ∧ l.value = k) :
    handshakeAccepted (parseHandshakeResponse (renderBlock ls)) k = true
    ∧ ∀ (B1 B2 : List HeaderLine) (l : HeaderLine) (v : Str),
        ls = B1 ++ l :: B2 →
        (l.name = "Upgrade".toList ∨ l.name = "Connection".toList
          ∨ l.name = "Sec-WebSocket-Accept".toList) →
        isToken v = true → v ≠ l.value →
        handshakeAccepted
          (parseHandshakeResponse (renderBlock (B1 ++ l.withValue v :: B2))) k = false := by
  obtain ⟨lu, hlu, hun, huv⟩ := hu
  obtain ⟨lc, hlc, hcn, hcv⟩ := hc
  obtain ⟨la, hla, han, hav⟩ := ha
  have hwf : ∀ l ∈ ls, l.wellFormed = true :=
    fun l hl => wellFormed_of_plain l (hB l hl).1 (hB l hl).2.1 (hB l hl).2.2
  constructor
  · rw [handshakeAccepted_iff, parse_block_lastValue ls hwf hlead,
      lastValue_of_mem _ ls hA la hla han, lastValue_of_mem _ ls hU lu hlu hun,
      lastValue_of_mem _ ls hC lc hlc hcn, huv, hcv, hav]
    have hk : k ≠ [] := by
      rw [← hav]
      exact (token_parts _ (hB la hla).2.2).1
    simp [hk]
  · intro B1 B2 l v hls hname hv hne
    subst hls
    have hlmem : l ∈ B1 ++ l :: B2 := List.mem_append_right _ (List.mem_cons_self _ _)
    have hmem : l.withValue v ∈ B1 ++ l.withValue v :: B2 :=
      List.mem_append_right _ (List.mem_cons_self _ _)
    have hB2 : ∀ x ∈ B1 ++ l.withValue v :: B2,
        isPlain x = true ∧ x.name.all notColon = true ∧ isToken x.value = true := by
      intro x hx
      rcases List.mem_append.mp hx with h | h
      · exact hB x (List.mem_append_left _ h)
      · rcases List.mem_cons.mp h with rfl | h
        · exact ⟨(hB l hlmem).1, (hB l hlmem).2.1, hv⟩
        · exact hB x (List.mem_append_right _ (List.mem_cons_of_mem _ h))
    have hlead2 : ∀ x ∈ (B1 ++ l.withValue v :: B2).tail,
        startsWithWhitespace x.name = false := by
      cases B1 with
      | nil =>
        intro x hx
        exact hlead x hx
      | cons b B1 =>
        intro x hx
        simp only [List.cons_append, List.tail_cons] at hx hlead
        rcases List.mem_append.mp hx with h | h
        · exact hlead x (List.mem_append_left _ h)
        · rcases List.mem_cons.mp h with rfl | h
          · exact hlead l (List.mem_append_right _ (List.mem_cons_self _ _))
          · exact hlead x (List.mem_append_right _ (List.mem_cons_of_mem _ h))
    have hwf2 : ∀ x ∈ B1 ++ l.withValue v :: B2, x.wellFormed = true :=
      fun x hx => wellFormed_of_plain x (hB2 x hx).1 (hB2 x hx).2.1 (hB2 x hx).2.2
    have hfalse : ∀ p : HandshakeResponseResult,
        ¬ (p.isSuccess = true ∧ p.serverAccept = k) → handshakeAccepted p k = false := by
      intro p hp
      cases h : handshakeAccepted p k with
      | false => rfl
      | true => exact absurd ((handshakeAccepted_iff p k).mp h) hp
    apply hfalse
    rw [parse_block_lastValue _ hwf2 hlead2]
    rcases hname with hn | hn | hn
    · have h1 := lastValue_of_mem _ _ (by rw [occurrences_withValue]; exact hU)
        (l.withValue v) hmem hn
      have h2 : l.value = "websocket".toList := by
        have e1 := lastValue_of_mem _ _ hU l hlmem hn
        have e2 := lastValue_of_mem _ _ hU lu hlu hun
        rw [e1] at e2
        simpa [huv] using e2
      rw [h2] at hne
      rintro ⟨hs, _⟩
      simp only [Bool.and_eq_true, decide_eq_true_eq] at hs
      rw [h1] at hs
      exact hne (Option.some.inj hs.1.2)
    · have h1 := lastValue_of_mem _ _ (by rw [occurrences_withValue]; exact hC)
        (l.withValue v) hmem hn
      have h2 : l.value = "Upgrade".toList := by
        have e1 := lastValue_of_mem _ _ hC l hlmem hn
        have e2 := lastValue_of_mem _ _ hC lc hlc hcn
        rw [e1] at e2
        simpa [hcv] using e2
      rw [h2] at hne
      rintro ⟨hs, _⟩
      simp only [Bool.and_eq_true, decide_eq_true_eq] at hs
      rw [h1] at hs
      exact hne (Option.some.inj hs.2)
    · have h1 := lastValue_of_mem _ _ (by rw [occurrences_withValue]; exact hA)
        (l.withValue v) hmem hn
      have h2 : l.value = k := by
        have e1 := lastValue_of_mem _ _ hA l hlmem hn
        have e2 := lastValue_of_mem _ _ hA la hla han
        rw [e1] at e2
        simpa [hav] using e2
      rw [h2] at hne
      rintro ⟨_, hs⟩
      simp only at hs
      rw [h1] at hs
      exact hne hs

/-- C9, amended, at the block of the three required lines with accept key `k`. -/
theorem c9_exact_values_witness :
    handshakeAccepted (parseHandshakeResponse (renderBlock (requiredBlock "k".toList)))
        "k".toList = true
    ∧ ∀ (B1 B2 : List HeaderLine) (l : HeaderLine) (v : Str),
        requiredBlock "k".toList = B1 ++ l :: B2 →
        (l.name = "Upgrade".toList ∨ l.name = "Connection".toList
          ∨ l.name = "Sec-WebSocket-Accept".toList) →
        isToken v = true → v ≠ l.value →
        handshakeAccepted
          (parseHandshakeResponse (renderBlock (B1 ++ l.withValue v :: B2)))
          "k".toList = false :=
  c9_exact_values (requiredBlock "k".toList) "k".toList (by decide) (by decide) (by decide)
    (by decide) (by decide) (by decide) (by decide) (by decide)

/-! ## Claims about the handshake request -/

/-- C3: for every path and every nonce that `base64Encode(randomBytes(16))`
returns, `generateHandshake(path)` returns a `requestStr` that is, character for
character, `GET path HTTP/1.1`, `Upgrade: websocket`, `Connection: Upgrade`,
`Sec-WebSocket-Key: nonce`, `Sec-WebSocket-Version: 13` and the empty line, each
closed by CRLF, and an `expectedAcceptKey` that is `websocketsHandshakeEncodeKey`
of that same nonce. -/
theorem c3_generateHandshake (env : Collab σ) (w : σ) (path : Str) :
    (generateHandshake env w path).1.requestStr
      = "GET ".toList ++ path
        ++ " HTTP/1.1\r\nUpgrade: websocket\r\nConnection: Upgrade\r\nSec-WebSocket-Key: ".toList
        ++ (env.randomKey w).1 ++ "\r\nSec-WebSocket-Version: 13\r\n\r\n".toList
    ∧ (generateHandshake env w path).1.expectedAcceptKey
      = env.websocketsHandshakeEncodeKey (env.randomKey w).1 := by
  constructor
  · simp [generateHandshake]
  · rfl

/-! ## The header loop of `connect` -/

theorem readHeaderLines_some (env : Collab σ) : ∀ (k : Nat) (w : σ) (acc : Str)
    (tr : List Event) (fuel : Nat),
    nthLine env k w = crlf → (∀ j, j < k → nthLine env j w ≠ crlf) → k < fuel →
    readHeaderLines env fuel w acc tr
      = some (acc ++ linesUpTo env k w, worldAfterLines env k w,
          tr ++ List.replicate (k + 1) Event.tcpReadLine) := by
  intro k
  induction k with
  | zero =>
    intro w acc tr fuel hk _ hf
    cases fuel with
    | zero => omega
    | succ f =>
      have h0 : (env.tcpReadLine w).1 = crlf := hk
      simp [readHeaderLines, h0, linesUpTo, worldAfterLines]
  | succ k ih =>
    intro w acc tr fuel hk hfirst hf
    cases fuel with
    | zero => omega
    | succ f =>
      have h0 : (env.tcpReadLine w).1 ≠ crlf := hfirst 0 (by omega)
      unfold readHeaderLines
      simp only [h0, if_false]
      rw [ih (env.tcpReadLine w).2 _ _ f hk
        (fun j hj => hfirst (j + 1) (by omega)) (by omega)]
      simp [linesUpTo, worldAfterLines, List.replicate_succ]

theorem readHeaderLines_none (env : Collab σ) : ∀ (fuel : Nat) (w : σ) (acc : Str)
    (tr : List Event),
    (∀ j, j < fuel → nthLine env j w ≠ crlf) → readHeaderLines env fuel w acc tr = none := by
  intro fuel
  induction fuel with
  | zero => intro w acc tr _; rfl
  | succ f ih =>
    intro w acc tr hfirst
    have h0 : (env.tcpReadLine w).1 ≠ crlf := hfirst 0 (by omega)
    unfold readHeaderLines
    simp only [h0, if_false]
    exact ih _ _ _ (fun j hj => hfirst (j + 1) (by omega))

/-! ## The paths through `connect` -/

theorem connect_not_connected (env : Collab σ) (c : WebsocketsClient σ) (host path : Str)
    (port : Int) (fuel : Nat) (hok : (env.tcpConnect c.world host port).1 = false) :
    c.connect env fuel host path port
      = some (false,
          { _connectionOpen := false
            world := (env.tcpConnect c.world host port).2
            trace := c.trace ++ [Event.tcpConnect host port] }) := by
  simp [WebsocketsClient.connect, hok]

theorem connect_bad_status (env : Collab σ) (c : WebsocketsClient σ) (host path : Str)
    (port : Int) (fuel : Nat) (hok : (env.tcpConnect c.world host port).1 = true)
    (hhead : statusRead env c host path port ≠ statusLine) :
    c.connect env fuel host path port
      = some (false, (clientAfterStatus env c host path port).close env) := by
  unfold statusRead worldAfterRequest requestOf at hhead
  simp [WebsocketsClient.connect, hok, hhead, clientAfterStatus, worldAfterStatus,
    worldAfterRequest, requestOf]

theorem connect_headers (env : Collab σ) (c : WebsocketsClient σ) (host path : Str)
    (port : Int) (k fuel : Nat) (hok : (env.tcpConnect c.world host port).1 = true)
    (hhead : statusRead env c host path port = statusLine)
    (hterm : nthLine env k (worldAfterStatus env c host path port) = crlf)
    (hfirst : ∀ j, j < k → nthLine env j (worldAfterStatus env c host path port) ≠ crlf)
    (hf : k < fuel) :
    c.connect env fuel host path port
      = if handshakeAccepted (parseHandshakeResponse (headerBlock env c host path port k))
            (requestOf env c host path port).expectedAcceptKey = true then
          some (true, clientAfterHeaders env c host path port k)
        else some (false, (clientAfterHeaders env c host path port k).close env) := by
  have hread := readHeaderLines_some env k (worldAfterStatus env c host path port) []
    (clientAfterStatus env c host path port).trace fuel hterm hfirst hf
  unfold statusRead worldAfterRequest requestOf at hhead
  unfold clientAfterStatus worldAfterStatus worldAfterRequest requestOf at hread
  simp only [List.nil_append] at hread
  unfold WebsocketsClient.connect
  simp only [hok, hhead, hread]
  simp only [handshakeAccepted_iff, clientAfterHeaders, clientAfterStatus, headerBlock,
    worldAfterStatus, worldAfterRequest, requestOf]
  cases (parseHandshakeResponse (linesUpTo env k (env.tcpReadLine (env.tcpSend
    (generateHandshake env (env.tcpConnect c.world host port).2 path).2
    (generateHandshake env (env.tcpConnect c.world host port).2
      path).1.requestStr)).2)).isSuccess <;> simp [hok]

theorem connect_no_fuel (env : Collab σ) (c : WebsocketsClient σ) (host path : Str)
    (port : Int) (fuel : Nat) (hok : (env.tcpConnect c.world host port).1 = true)
    (hhead : statusRead env c host path port = statusLine)
    (hfirst : ∀ j, j < fuel → nthLine env j (worldAfterStatus env c host path port) ≠ crlf) :
    c.connect env fuel host path port = none := by
  have hread := readHeaderLines_none env fuel (worldAfterStatus env c host path port) []
    (clientAfterStatus env c host path port).trace hfirst
  unfold statusRead worldAfterRequest requestOf at hhead
  unfold clientAfterStatus worldAfterStatus worldAfterRequest requestOf at hread
  unfold WebsocketsClient.connect
  simp only [hok, hhead, hread]
  simp

/-! ## What `close` does to the client -/

theorem closeRequests_append (t1 t2 : List Event) :
    closeRequests (t1 ++ t2) = closeRequests t1 ++ closeRequests t2 := by
  simp [closeRequests, List.filterMap_append]

theorem linesRead_append (t1 t2 : List Event) :
    linesRead (t1 ++ t2) = linesRead t1 + linesRead t2 := by
  simp [linesRead, List.count_append]

theorem parserRuns_append (t1 t2 : List Event) :
    parserRuns (t1 ++ t2) = parserRuns t1 + parserRuns t2 := by
  simp [parserRuns, List.countP_append]

theorem close_eq (env : Collab σ) (c : WebsocketsClient σ) :
    c.close env
      = if (c._connectionOpen && (env.tcpAvailable c.world).1) = true then
          { _connectionOpen := false
            world := env.endpointClose
              (if env.activeTestDefault = true then env.endpointPing (env.tcpAvailable c.world).2
                else (env.tcpAvailable c.world).2) true
            trace := c.trace ++ [Event.tcpAvailable]
              ++ (if env.activeTestDefault = true then [Event.endpointPing] else [])
              ++ [Event.endpointClose true] }
        else
          { _connectionOpen := false
            world := (env.tcpAvailable c.world).2
            trace := c.trace ++ [Event.tcpAvailable] } := by
  unfold WebsocketsClient.close WebsocketsClient.available
  by_cases h : (c._connectionOpen && (env.tcpAvailable c.world).1) = true
  · by_cases hd : env.activeTestDefault = true
    · simp [h, hd]
    · simp [h, hd]
  · simp only [Bool.not_eq_true] at h
    simp [h]

theorem close_open_flag (env : Collab σ) (c : WebsocketsClient σ) :
    (c.close env)._connectionOpen = false := by
  rw [close_eq]
  split_ifs <;> rfl

theorem close_closeRequests (env : Collab σ) (c : WebsocketsClient σ) :
    closeRequests (c.close env).trace
      = closeRequests c.trace
        ++ (if (c._connectionOpen && (env.tcpAvailable c.world).1) = true then [true] else []) := by
  rw [close_eq]
  split_ifs <;> simp [closeRequests, List.filterMap_append]

theorem close_linesRead (env : Collab σ) (c : WebsocketsClient σ) :
    linesRead (c.close env).trace = linesRead c.trace := by
  rw [close_eq]
  split_ifs <;> simp [linesRead, List.count_append]

theorem close_parserRuns (env : Collab σ) (c : WebsocketsClient σ) :
    parserRuns (c.close env).trace = parserRuns c.trace := by
  rw [close_eq]
  split_ifs <;> simp [parserRuns, List.countP_append]

theorem linesUpTo_succ (env : Collab σ) : ∀ (k : Nat) (w : σ),
    linesUpTo env (k + 1) w = linesUpTo env k w ++ nthLine env (k + 1) w := by
  intro k
  induction k with
  | zero => intro w; rfl
  | succ k ih =>
    intro w
    have h := ih (env.tcpReadLine w).2
    simp only [linesUpTo, nthLine, List.append_assoc] at h ⊢
    rw [h]

/-! ## Claims about `connect` and `close` -/

/-- C2: for every host, path and port and every behaviour of the collaborators in
which the header terminator line is eventually read (line number `k` after the
first line is the first that equals `"\r\n"`), `connect` returns, with every budget
above `k`, one and the same value, and that value is `true` if and only if the
transport's `connect(host, port)` returned true, the first line read is exactly
`HTTP/1.1 101 Switching Protocols\r\n`, `parseHandshakeResponse` of the
accumulated header block has `isSuccess = true`, and its `serverAccept` equals the
`expectedAcceptKey` of the request generated for this attempt. -/
theorem c2_connect_iff (env : Collab σ) (c : WebsocketsClient σ) (host path : Str)
    (port : Int) (k : Nat)
    (hterm : nthLine env k (worldAfterStatus env c host path port) = crlf)
    (hfirst : ∀ j, j < k → nthLine env j (worldAfterStatus env c host path port) ≠ crlf) :
    ∃ b : Bool,
      (∀ fuel, k < fuel → (c.connect env fuel host path port).map Prod.fst = some b)
      ∧ (∀ fuel b', (c.connect env fuel host path port).map Prod.fst = some b' → b' = b)
      ∧ (b = true ↔
          (env.tcpConnect c.world host port).1 = true
          ∧ statusRead env c host path port = statusLine
          ∧ (parseHandshakeResponse (headerBlock env c host path port k)).isSuccess = true
          ∧ (parseHandshakeResponse (headerBlock env c host path port k)).serverAccept
              = (requestOf env c host path port).expectedAcceptKey) := by
  by_cases hok : (env.tcpConnect c.world host port).1 = true
  · by_cases hhead : statusRead env c host path port = statusLine
    · refine ⟨handshakeAccepted (parseHandshakeResponse (headerBlock env c host path port k))
        (requestOf env c host path port).expectedAcceptKey, ?_, ?_, ?_⟩
      · intro fuel hf
        rw [connect_headers env c host path port k fuel hok hhead hterm hfirst hf]
        split_ifs with h
        · simp [h]
        · simp only [Bool.not_eq_true] at h
          simp [h]
      · intro fuel b' hb
        by_cases hf : k < fuel
        · rw [connect_headers env c host path port k fuel hok hhead hterm hfirst hf] at hb
          split_ifs at hb with h
          · simp only [Option.map_some', Option.some.injEq] at hb
            rw [h, ← hb]
          · simp only [Bool.not_eq_true] at h
            simp only [Option.map_some', Option.some.injEq] at hb
            rw [h, ← hb]
        · rw [connect_no_fuel env c host path port fuel hok hhead
            (fun j hj => hfirst j (by omega))] at hb
          cases hb
      · rw [handshakeAccepted_iff]
        exact ⟨fun h => ⟨hok, hhead, h.1, h.2⟩, fun h => ⟨h.2.2.1, h.2.2.2⟩⟩
    · refine ⟨false, ?_, ?_, ?_⟩
      · intro fuel _
        rw [connect_bad_status env c host path port fuel hok hhead]
        rfl
      · intro fuel b' hb
        rw [connect_bad_status env c host path port fuel hok hhead] at hb
        simp only [Option.map_some', Option.some.injEq] at hb
        exact hb.symm
      · exact ⟨fun h => Bool.noConfusion h, fun h => absurd h.2.1 hhead⟩
  · have hok2 : (env.tcpConnect c.world host port).1 = false := by
      simpa using hok
    refine ⟨false, ?_, ?_, ?_⟩
    · intro fuel _
      rw [connect_not_connected env c host path port fuel hok2]
      rfl
    · intro fuel b' hb
      rw [connect_not_connected env c host path port fuel hok2] at hb
      simp only [Option.map_some', Option.some.injEq] at hb
      exact hb.symm
    · exact ⟨fun h => Bool.noConfusion h, fun h => absurd h.1 hok⟩

/-- C2 at the mock transport that answers with the 101 status line and the three
required headers, the accept key being the one derived from the nonce:
`connect("host", "/chat", 80)` returns true. -/
theorem c2_connect_iff_witness :
    ((WebsocketsClient.new 0).connect (mockCollab statusLine sampleAccept) 4
        "host".toList "/chat".toList 80).map Prod.fst = some true
    ∧ ∃ b : Bool,
      (∀ fuel, 3 < fuel →
        ((WebsocketsClient.new 0).connect (mockCollab statusLine sampleAccept) fuel
          "host".toList "/chat".toList 80).map Prod.fst = some b)
      ∧ (∀ fuel b',
        ((WebsocketsClient.new 0).connect (mockCollab statusLine sampleAccept) fuel
          "host".toList "/chat".toList 80).map Prod.fst = some b' → b' = b)
      ∧ (b = true ↔
          ((mockCollab statusLine sampleAccept).tcpConnect (WebsocketsClient.new 0).world
            "host".toList 80).1 = true
          ∧ statusRead (mockCollab statusLine sampleAccept) (WebsocketsClient.new 0)
              "host".toList "/chat".toList 80 = statusLine
          ∧ (parseHandshakeResponse (headerBlock (mockCollab statusLine sampleAccept)
              (WebsocketsClient.new 0) "host".toList "/chat".toList 80 3)).isSuccess = true
          ∧ (parseHandshakeResponse (headerBlock (mockCollab statusLine sampleAccept)
              (WebsocketsClient.new 0) "host".toList "/chat".toList 80 3)).serverAccept
              = (requestOf (mockCollab statusLine sampleAccept) (WebsocketsClient.new 0)
                  "host".toList "/chat".toList 80).expectedAcceptKey) :=
  ⟨by decide,
   c2_connect_iff (mockCollab statusLine sampleAccept) (WebsocketsClient.new 0)
     "host".toList "/chat".toList 80 3 (by decide) (by decide)⟩

theorem parse_requiredBlock (k : Str) (hk : isToken k = true) :
    parseHandshakeResponse (renderBlock (requiredBlock k))
      = { isSuccess := true, serverAccept := k } :=
  parse_paddedBlock k [' '] [] [' '] [] [' '] [] hk rfl rfl rfl rfl rfl rfl

theorem closeRequests_replicate_readLine (n : Nat) :
    closeRequests (List.replicate n Event.tcpReadLine) = [] := by
  induction n with
  | zero => rfl
  | succ n ih =>
    rw [List.replicate_succ]
    simp only [closeRequests, List.filterMap_cons] at ih ⊢
    exact ih

theorem closeRequests_clientAfterHeaders (env : Collab σ) (c : WebsocketsClient σ)
    (host path : Str) (port : Int) (k : Nat) :
    closeRequests (clientAfterHeaders env c host path port k).trace = closeRequests c.trace := by
  unfold clientAfterHeaders clientAfterStatus
  simp only [closeRequests_append, closeRequests_replicate_readLine]
  simp [closeRequests]

theorem connect_required_headers (env : Collab σ) (c : WebsocketsClient σ) (host path : Str)
    (port : Int) (fuel : Nat)
    (hok : (env.tcpConnect c.world host port).1 = true)
    (hhead : statusRead env c host path port = statusLine)
    (h0 : nthLine env 0 (worldAfterStatus env c host path port)
      = "Upgrade: websocket\r\n".toList)
    (h1 : nthLine env 1 (worldAfterStatus env c host path port)
      = "Connection: Upgrade\r\n".toList)
    (h2 : nthLine env 2 (worldAfterStatus env c host path port)
      = "Sec-WebSocket-Accept: ".toList
        ++ (requestOf env c host path port).expectedAcceptKey ++ crlf)
    (h3 : nthLine env 3 (worldAfterStatus env c host path port) = crlf)
    (hkey : isToken (requestOf env c host path port).expectedAcceptKey = true)
    (hfuel : 3 < fuel) :
    c.connect env fuel host path port
      = some (true, clientAfterHeaders env c host path port 3) := by
  have hfirst : ∀ j, j < 3 → nthLine env j (worldAfterStatus env c host path port) ≠ crlf := by
    intro j hj
    have hcases : j = 0 ∨ j = 1 ∨ j = 2 := by omega
    rcases hcases with rfl | rfl | rfl
    · rw [h0]; decide
    · rw [h1]; decide
    · rw [h2]; simp [crlf]
  have hblock : headerBlock env c host path port 3
      = renderBlock (requiredBlock (requestOf env c host path port).expectedAcceptKey) := by
    unfold headerBlock
    rw [linesUpTo_succ, linesUpTo_succ, linesUpTo_succ, h1, h2, h3]
    have h00 : linesUpTo env 0 (worldAfterStatus env c host path port)
        = "Upgrade: websocket\r\n".toList := h0
    rw [h00]
    simp [renderBlock, requiredBlock, HeaderLine.render, HeaderLine.plain, crlf]
  have hacc : handshakeAccepted (parseHandshakeResponse (headerBlock env c host path port 3))
      (requestOf env c host path port).expectedAcceptKey = true := by
    rw [handshakeAccepted_iff, hblock, parse_requiredBlock _ hkey]
    exact ⟨rfl, rfl⟩
  rw [connect_headers env c host path port 3 fuel hok hhead h3 hfirst hfuel, hacc]
  rfl

/-- C4: for every first line read after the request that differs from the literal
`HTTP/1.1 101 Switching Protocols\r\n`, `connect` returns false, whatever the
budget of the header loop; the open flag is false afterwards, the call has read
that one line and no further line, and the header parser has not been run. -/
theorem c4_bad_status_line (env : Collab σ) (c : WebsocketsClient σ) (host path : Str)
    (port : Int) (fuel : Nat) (hok : (env.tcpConnect c.world host port).1 = true)
    (hhead : statusRead env c host path port ≠ statusLine) :
    ∃ c' : WebsocketsClient σ,
      c.connect env fuel host path port = some (false, c')
      ∧ c'._connectionOpen = false
      ∧ linesRead c'.trace = linesRead c.trace + 1
      ∧ parserRuns c'.trace = parserRuns c.trace := by
  refine ⟨(clientAfterStatus env c host path port).close env,
    connect_bad_status env c host path port fuel hok hhead, close_open_flag _ _, ?_, ?_⟩
  · rw [close_linesRead]
    simp [clientAfterStatus, linesRead, List.count_append, List.count_cons]
  · rw [close_parserRuns]
    simp [clientAfterStatus, parserRuns, List.countP_append, List.countP_cons]

/-- C4 at a mock transport that answers `HTTP/1.1 200 OK\r\n`. -/
theorem c4_bad_status_line_witness :
    ∃ c' : WebsocketsClient Nat,
      (WebsocketsClient.new 0).connect (mockCollab "HTTP/1.1 200 OK\r\n".toList sampleAccept) 4
          "host".toList "/chat".toList 80 = some (false, c')
      ∧ c'._connectionOpen = false
      ∧ linesRead c'.trace = linesRead (WebsocketsClient.new (0 : Nat)).trace + 1
      ∧ parserRuns c'.trace = parserRuns (WebsocketsClient.new (0 : Nat)).trace :=
  c4_bad_status_line (mockCollab "HTTP/1.1 200 OK\r\n".toList sampleAccept)
    (WebsocketsClient.new 0) "host".toList "/chat".toList 80 4 (by decide) (by decide)

/-- C5, as stated, fails: the mock transport connects, stays available, answers
with the exact status line and with `Upgrade: websocket`, `Connection: Upgrade`
and the accept value `s3pPLMBiTxaQ9kYGzzhZRbK+xOo= x`, which differs from the
expected accept key `s3pPLMBiTxaQ9kYGzzhZRbK+xOo=`; `connect` returns true and no
close is requested. The value is read only up to its first space. -/
theorem c5_accept_value_counterexample :
    headerBlock (mockCollab statusLine (sampleAccept ++ " x".toList)) (WebsocketsClient.new 0)
        "host".toList "/chat".toList 80 3
      = ("Upgrade: websocket\r\nConnection: Upgrade\r\n".toList
          ++ "Sec-WebSocket-Accept: s3pPLMBiTxaQ9kYGzzhZRbK+xOo= x\r\n\r\n".toList)
    ∧ sampleAccept ++ " x".toList
      ≠ (requestOf (mockCollab statusLine (sampleAccept ++ " x".toList)) (WebsocketsClient.new 0)
          "host".toList "/chat".toList 80).expectedAcceptKey
    ∧ ((WebsocketsClient.new 0).connect (mockCollab statusLine (sampleAccept ++ " x".toList)) 4
        "host".toList "/chat".toList 80).map
          (fun r => (r.1, r.2._connectionOpen, closeRequests r.2.trace))
      = some (true, true, []) := by
  decide

theorem render_ne_crlf (l : HeaderLine) : l.render ≠ crlf := by
  intro h
  have hc : ':' ∈ l.render := by simp [HeaderLine.render]
  rw [h] at hc
  revert hc
  decide

theorem deliversBlock_lines (env : Collab σ) : ∀ (ls : List HeaderLine) (w : σ),
    deliversBlock env ls w = true →
    nthLine env ls.length w = crlf
    ∧ (∀ j, j < ls.length → nthLine env j w ≠ crlf)
    ∧ linesUpTo env ls.length w = renderBlock ls := by
  intro ls
  induction ls with
  | nil =>
    intro w h
    simp only [deliversBlock, decide_eq_true_eq] at h
    refine ⟨h, ?_, h⟩
    intro j hj
    simp at hj
  | cons l ls ih =>
    intro w h
    simp only [deliversBlock, Bool.and_eq_true, decide_eq_true_eq] at h
    obtain ⟨h1, h2, h3⟩ := ih _ h.2
    refine ⟨h1, ?_, ?_⟩
    · intro j hj
      cases j with
      | zero =>
        show (env.tcpReadLine w).1 ≠ crlf
        rw [h.1]
        exact render_ne_crlf l
      | succ j =>
        simp only [List.length_cons] at hj
        exact h2 j (by omega)
    · show (env.tcpReadLine w).1 ++ linesUpTo env ls.length (env.tcpReadLine w).2
        = renderBlock (l :: ls)
      rw [h.1, h3]
      rfl

/-- C5, amended: for a transport that connects, stays available, and answers with
the exact 101 status line and then, line by line, with a well-formed header block
(plain lines `Name: value\r\n` closed by an empty line, in any order and with any
further headers; names without a colon, none after the first line beginning with
whitespace; values non-empty tokens without space, tab, CR or LF;
`Sec-WebSocket-Accept` at most once) whose `Sec-WebSocket-Accept` value differs
from the expected accept key, `connect` returns false with every budget above the
number of lines, the open flag is false afterwards, and exactly one endpoint-level
close, with the initiator flag set, has been requested. That the block has
`Upgrade: websocket` and `Connection: Upgrade`, as in the claim, is not needed. -/
theorem c5_accept_mismatch (env : Collab σ) (c : WebsocketsClient σ) (host path : Str)
    (port : Int) (ls : List HeaderLine) (fuel : Nat)
    (hok : (env.tcpConnect c.world host port).1 = true)
    (havail : ∀ w, (env.tcpAvailable w).1 = true)
    (hhead : statusRead env c host path port = statusLine)
    (hlines : deliversBlock env ls (worldAfterStatus env c host path port) = true)
    (hB : ∀ l ∈ ls, isPlain l = true ∧ l.name.all notColon = true ∧ isToken l.value = true)
    (hlead : ∀ l ∈ ls.tail, startsWithWhitespace l.name = false)
    (hA : occurrences "Sec-WebSocket-Accept".toList ls ≤ 1)
    (ha : ∃ l ∈ ls, l.name = "Sec-WebSocket-Accept".toList
      ∧ l.value ≠ (requestOf env c host path port).expectedAcceptKey)
    (hfuel : ls.length < fuel) :
    ∃ c' : WebsocketsClient σ,
      c.connect env fuel host path port = some (false, c')
      ∧ c'._connectionOpen = false
      ∧ closeRequests c'.trace = closeRequests c.trace ++ [true] := by
  obtain ⟨hterm, hfirst, hblock0⟩ := deliversBlock_lines env ls _ hlines
  have hblock : headerBlock env c host path port ls.length = renderBlock ls := hblock0
  obtain ⟨la, hla, han, hav⟩ := ha
  have hwf : ∀ l ∈ ls, l.wellFormed = true :=
    fun l hl => wellFormed_of_plain l (hB l hl).1 (hB l hl).2.1 (hB l hl).2.2
  have hrej : handshakeAccepted
      (parseHandshakeResponse (headerBlock env c host path port ls.length))
      (requestOf env c host path port).expectedAcceptKey = false := by
    cases hacc : handshakeAccepted
      (parseHandshakeResponse (headerBlock env c host path port ls.length))
      (requestOf env c host path port).expectedAcceptKey with
    | false => rfl
    | true =>
      exfalso
      rw [handshakeAccepted_iff, hblock, parse_block_lastValue ls hwf hlead,
        lastValue_of_mem _ ls hA la hla han] at hacc
      exact hav hacc.2
  refine ⟨(clientAfterHeaders env c host path port ls.length).close env, ?_,
    close_open_flag _ _, ?_⟩
  · rw [connect_headers env c host path port ls.length fuel hok hhead hterm hfirst hfuel, hrej]
    rfl
  · rw [close_closeRequests, closeRequests_clientAfterHeaders]
    have hopen : (clientAfterHeaders env c host path port ls.length)._connectionOpen = true :=
      hok
    rw [hopen, havail]
    rfl

/-- C5, amended, at a mock transport that answers with `wrongAcceptBlock`: the
required headers in another order, one further header, and an accept value that is
the expected key with its last character changed. -/
theorem c5_accept_mismatch_witness :
    ∃ c' : WebsocketsClient Nat,
      (WebsocketsClient.new 0).connect (blockCollab statusLine wrongAcceptBlock) 5
          "host".toList "/chat".toList 80 = some (false, c')
      ∧ c'._connectionOpen = false
      ∧ closeRequests c'.trace = closeRequests (WebsocketsClient.new (0 : Nat)).trace ++ [true] :=
  c5_accept_mismatch (blockCollab statusLine wrongAcceptBlock)
    (WebsocketsClient.new 0) "host".toList "/chat".toList 80 wrongAcceptBlock 5
    (by decide) (fun _ => rfl) (by decide) (by decide) (by decide) (by decide) (by decide)
    (by decide) (by decide)

theorem connect_headers_any (env : Collab σ) (c : WebsocketsClient σ) (host path : Str)
    (port : Int) (fuel : Nat) (hok : (env.tcpConnect c.world host port).1 = true)
    (hhead : statusRead env c host path port = statusLine) :
    c.connect env fuel host path port
      = match readHeaderLines env fuel (worldAfterStatus env c host path port) []
          (clientAfterStatus env c host path port).trace with
        | none => none
        | some r =>
          if handshakeAccepted (parseHandshakeResponse r.1)
              (requestOf env c host path port).expectedAcceptKey = true then
            some (true,
              { _connectionOpen := true, world := r.2.1
                trace := r.2.2 ++ [Event.parseHeaders r.1] })
          else
            some (false, WebsocketsClient.close env
              { _connectionOpen := true, world := r.2.1
                trace := r.2.2 ++ [Event.parseHeaders r.1] }) := by
  unfold statusRead worldAfterRequest requestOf at hhead
  unfold clientAfterStatus worldAfterStatus worldAfterRequest requestOf
  unfold WebsocketsClient.connect
  simp only [hok, hhead]
  cases readHeaderLines env fuel (env.tcpReadLine (env.tcpSend
      (generateHandshake env (env.tcpConnect c.world host port).2 path).2
      (generateHandshake env (env.tcpConnect c.world host port).2 path).1.requestStr)).2 []
      (c.trace ++ [Event.tcpConnect host port]
        ++ [Event.tcpSend (generateHandshake env (env.tcpConnect c.world host port).2
              path).1.requestStr, Event.tcpReadLine]) with
  | none => simp
  | some r =>
    obtain ⟨hdrs, w3, tr⟩ := r
    simp only [handshakeAccepted_iff]
    cases (parseHandshakeResponse hdrs).isSuccess <;> simp

/-- C6: for every previous state of the client and every behaviour of the
collaborators, whenever `connect` returns, the open flag afterwards equals the
value returned. -/
theorem c6_open_flag_is_result (env : Collab σ) (c : WebsocketsClient σ) (host path : Str)
    (port : Int) (fuel : Nat) (b : Bool) (c' : WebsocketsClient σ)
    (h : c.connect env fuel host path port = some (b, c')) :
    c'._connectionOpen = b := by
  by_cases hok : (env.tcpConnect c.world host port).1 = true
  · by_cases hhead : statusRead env c host path port = statusLine
    · rw [connect_headers_any env c host path port fuel hok hhead] at h
      cases hr : readHeaderLines env fuel (worldAfterStatus env c host path port) []
          (clientAfterStatus env c host path port).trace with
      | none => rw [hr] at h; cases h
      | some r =>
        rw [hr] at h
        simp only at h
        split_ifs at h
        · simp only [Option.some.injEq, Prod.mk.injEq] at h
          rw [← h.1, ← h.2]
        · simp only [Option.some.injEq, Prod.mk.injEq] at h
          rw [← h.1, ← h.2]
          exact close_open_flag _ _
    · rw [connect_bad_status env c host path port fuel hok hhead] at h
      simp only [Option.some.injEq, Prod.mk.injEq] at h
      rw [← h.1, ← h.2]
      exact close_open_flag _ _
  · have hok2 : (env.tcpConnect c.world host port).1 = false := by
      simpa using hok
    rw [connect_not_connected env c host path port fuel hok2] at h
    simp only [Option.some.injEq, Prod.mk.injEq] at h
    rw [← h.1, ← h.2]

/-- C6 at the mock transport that completes the handshake, from a client whose
flag was false: `connect` returns true and the flag is true afterwards. -/
theorem c6_open_flag_is_result_witness :
    (WebsocketsClient.new 0).connect (mockCollab statusLine sampleAccept) 4
        "host".toList "/chat".toList 80
      = some (true, clientAfterHeaders (mockCollab statusLine sampleAccept)
          (WebsocketsClient.new 0) "host".toList "/chat".toList 80 3)
    ∧ (clientAfterHeaders (mockCollab statusLine sampleAccept)
          (WebsocketsClient.new 0) "host".toList "/chat".toList 80 3)._connectionOpen = true :=
  ⟨by rfl,
   c6_open_flag_is_result (mockCollab statusLine sampleAccept) (WebsocketsClient.new 0)
     "host".toList "/chat".toList 80 4 true _ (by rfl)⟩

/-- C10: for every open connection whose transport reports available, the first
`close()` sets the open flag to false and requests one endpoint-level close with
the initiator flag true; the second `close()` finds the flag false, asks the
transport whether it is available and does nothing else: the flag stays false and
no close is requested, so that the two calls request exactly one close in total. -/
theorem c10_close_twice (env : Collab σ) (c : WebsocketsClient σ)
    (hopen : c._connectionOpen = true) (havail : (env.tcpAvailable c.world).1 = true) :
    (c.close env)._connectionOpen = false
    ∧ closeRequests (c.close env).trace = closeRequests c.trace ++ [true]
    ∧ ((c.close env).close env)._connectionOpen = false
    ∧ ((c.close env).close env).trace = (c.close env).trace ++ [Event.tcpAvailable]
    ∧ ((c.close env).close env).world = (env.tcpAvailable (c.close env).world).2
    ∧ closeRequests ((c.close env).close env).trace = closeRequests c.trace ++ [true] := by
  have hflag := close_open_flag env c
  have h1 : closeRequests (c.close env).trace = closeRequests c.trace ++ [true] := by
    rw [close_closeRequests, hopen, havail]
    rfl
  have h2 : (c.close env).close env
      = { _connectionOpen := false
          world := (env.tcpAvailable (c.close env).world).2
          trace := (c.close env).trace ++ [Event.tcpAvailable] } := by
    rw [close_eq env (c.close env), hflag]
    rfl
  refine ⟨hflag, h1, ?_, ?_, ?_, ?_⟩
  · rw [h2]
  · rw [h2]
  · rw [h2]
  · rw [h2]
    simp only [closeRequests_append, h1]
    simp [closeRequests]

/-- C10 at an open client over the mock transport. -/
theorem c10_close_twice_witness :
    ((WebsocketsClient.mk true (0 : Nat) []).close
        (mockCollab statusLine sampleAccept))._connectionOpen = false
    ∧ closeRequests ((WebsocketsClient.mk true (0 : Nat) []).close
        (mockCollab statusLine sampleAccept)).trace
      = closeRequests (WebsocketsClient.mk true (0 : Nat) []).trace ++ [true]
    ∧ (((WebsocketsClient.mk true (0 : Nat) []).close
        (mockCollab statusLine sampleAccept)).close
        (mockCollab statusLine sampleAccept))._connectionOpen = false
    ∧ (((WebsocketsClient.mk true (0 : Nat) []).close
        (mockCollab statusLine sampleAccept)).close (mockCollab statusLine sampleAccept)).trace
      = ((WebsocketsClient.mk true (0 : Nat) []).close
          (mockCollab statusLine sampleAccept)).trace ++ [Event.tcpAvailable]
    ∧ (((WebsocketsClient.mk true (0 : Nat) []).close
        (mockCollab statusLine sampleAccept)).close (mockCollab statusLine sampleAccept)).world
      = ((mockCollab statusLine sampleAccept).tcpAvailable
          ((WebsocketsClient.mk true (0 : Nat) []).close
            (mockCollab statusLine sampleAccept)).world).2
    ∧ closeRequests (((WebsocketsClient.mk true (0 : Nat) []).close
        (mockCollab statusLine sampleAccept)).close (mockCollab statusLine sampleAccept)).trace
      = closeRequests (WebsocketsClient.mk true (0 : Nat) []).trace ++ [true] :=
  c10_close_twice (mockCollab statusLine sampleAccept) (WebsocketsClient.mk true 0 [])
    rfl rfl

/-! ## `available`, and the operations it guards -/

theorem available_eq (env : Collab σ) (c : WebsocketsClient σ) (activeTest : Bool) :
    c.available env activeTest
      = (c._connectionOpen && (env.tcpAvailable c.world).1,
          { _connectionOpen := c._connectionOpen && (env.tcpAvailable c.world).1
            world :=
              if (c._connectionOpen && (env.tcpAvailable c.world).1 && activeTest) = true then
                env.endpointPing (env.tcpAvailable c.world).2
              else (env.tcpAvailable c.world).2
            trace := c.trace ++ [Event.tcpAvailable]
              ++ (if (c._connectionOpen && (env.tcpAvailable c.world).1 && activeTest) = true
                  then [Event.endpointPing] else []) }) := by
  unfold WebsocketsClient.available
  by_cases h : (c._connectionOpen && (env.tcpAvailable c.world).1 && activeTest) = true
  · simp only [h, if_true, List.append_assoc, List.singleton_append]
  · simp only [h, if_false, List.append_nil]
    simp

theorem available_closed (env : Collab σ) (c : WebsocketsClient σ) (activeTest : Bool)
    (h : c._connectionOpen = false) :
    c.available env activeTest
      = (false,
          { _connectionOpen := false
            world := (env.tcpAvailable c.world).2
            trace := c.trace ++ [Event.tcpAvailable] }) := by
  rw [available_eq, h]
  simp

/-- C17: `available(activeTest)` returns the open flag before the call AND the
transport's `available()`, stores that value as the new open flag, and requests
an endpoint ping if and only if the returned value is true and `activeTest` is
true: the calls it makes are the transport's `available()`, followed by the ping
in that case and by nothing otherwise; with `activeTest` false it sends nothing. -/
theorem c17_available (env : Collab σ) (c : WebsocketsClient σ) (activeTest : Bool) :
    (c.available env activeTest).1 = (c._connectionOpen && (env.tcpAvailable c.world).1)
    ∧ (c.available env activeTest).2._connectionOpen = (c.available env activeTest).1
    ∧ (c.available env activeTest).2.trace
        = c.trace ++ [Event.tcpAvailable]
          ++ (if ((c.available env activeTest).1 && activeTest) = true
              then [Event.endpointPing] else [])
    ∧ pingRequests (c.available env activeTest).2.trace
        = pingRequests c.trace
          + (if ((c.available env activeTest).1 && activeTest) = true then 1 else 0)
    ∧ (c.available env false).2.trace = c.trace ++ [Event.tcpAvailable] := by
  rw [available_eq env c activeTest, available_eq env c false]
  refine ⟨rfl, rfl, rfl, ?_, ?_⟩
  · simp only
    split_ifs <;> simp [pingRequests, List.count_append, List.count_cons]
  · simp

/-- C17 at an open client over the mock transport, with the probe on: the result
is true and one ping is requested. -/
theorem c17_available_witness :
    ((WebsocketsClient.mk true (0 : Nat) []).available
        (mockCollab statusLine sampleAccept) true).1 = true
    ∧ ((WebsocketsClient.mk true (0 : Nat) []).available
        (mockCollab statusLine sampleAccept) true).2.trace
      = [Event.tcpAvailable, Event.endpointPing]
    ∧ ((WebsocketsClient.mk true (0 : Nat) []).available
        (mockCollab statusLine sampleAccept) false).2.trace
      = (WebsocketsClient.mk true (0 : Nat) []).trace ++ [Event.tcpAvailable] :=
  ⟨(c17_available (mockCollab statusLine sampleAccept)
      (WebsocketsClient.mk true 0 []) true).1.trans (by decide),
   (c17_available (mockCollab statusLine sampleAccept)
      (WebsocketsClient.mk true 0 []) true).2.2.1.trans (by decide),
   (c17_available (mockCollab statusLine sampleAccept)
      (WebsocketsClient.mk true 0 []) true).2.2.2.2⟩

theorem poll_closed (env : Collab σ) (c : WebsocketsClient σ) (fuel : Nat)
    (h : c._connectionOpen = false) :
    WebsocketsClient.poll env (fuel + 1) c
      = some { _connectionOpen := false
               world := (env.tcpAvailable c.world).2
               trace := c.trace ++ [Event.tcpAvailable] } := by
  unfold WebsocketsClient.poll
  rw [available_closed env c _ h]
  simp

theorem poll_step (env : Collab σ) (c : WebsocketsClient σ) (fuel : Nat)
    (hopen : c._connectionOpen = true) (havail : (env.tcpAvailable c.world).1 = true)
    (hready : (env.endpointPoll (c.available env env.activeTestDefault).2.world).1 = true) :
    WebsocketsClient.poll env (fuel + 1) c
      = WebsocketsClient.poll env fuel
          ((clientAfterRecv env c).dispatch env (messageReceived env c)) := by
  have ha : (c.available env env.activeTestDefault).1 = true := by
    rw [available_eq, hopen, havail]
    rfl
  rw [WebsocketsClient.poll]
  simp only [ha, hready, Bool.not_true, Bool.false_eq_true, if_false]
  simp only [clientAfterRecv, messageReceived, List.append_assoc, List.singleton_append]

theorem handleClose_eq (env : Collab σ) (c : WebsocketsClient σ) (msg : WebsocketsMessage) :
    c._handleClose env msg
      = if (c._connectionOpen && (env.tcpAvailable c.world).1) = true then
          { _connectionOpen := false
            world := env.endpointClose
              (if env.activeTestDefault = true then env.endpointPing (env.tcpAvailable c.world).2
                else (env.tcpAvailable c.world).2) false
            trace := c.trace ++ [Event.tcpAvailable]
              ++ (if env.activeTestDefault = true then [Event.endpointPing] else [])
              ++ [Event.endpointClose false] }
        else
          { _connectionOpen := false
            world := (env.tcpAvailable c.world).2
            trace := c.trace ++ [Event.tcpAvailable] } := by
  unfold WebsocketsClient._handleClose WebsocketsClient.available
  by_cases h : (c._connectionOpen && (env.tcpAvailable c.world).1) = true
  · by_cases hd : env.activeTestDefault = true
    · simp [h, hd]
    · simp [h, hd]
  · simp only [Bool.not_eq_true] at h
    simp [h]

theorem send_eq (env : Collab σ) (c : WebsocketsClient σ) (data : Str) :
    c.send env data
      = if (c._connectionOpen && (env.tcpAvailable c.world).1) = true then
          { _connectionOpen := true
            world := env.endpointSend
              (if env.activeTestDefault = true then env.endpointPing (env.tcpAvailable c.world).2
                else (env.tcpAvailable c.world).2) data MessageType.Text
            trace := c.trace ++ [Event.tcpAvailable]
              ++ (if env.activeTestDefault = true then [Event.endpointPing] else [])
              ++ [Event.endpointSend data MessageType.Text] }
        else
          { _connectionOpen := false
            world := (env.tcpAvailable c.world).2
            trace := c.trace ++ [Event.tcpAvailable] } := by
  unfold WebsocketsClient.send WebsocketsClient.available
  by_cases h : (c._connectionOpen && (env.tcpAvailable c.world).1) = true
  · by_cases hd : env.activeTestDefault = true
    · simp [h, hd]
    · simp [h, hd]
  · simp only [Bool.not_eq_true] at h
    simp [h]

theorem sendBinary_eq (env : Collab σ) (c : WebsocketsClient σ) (data : Str) :
    c.sendBinary env data
      = if (c._connectionOpen && (env.tcpAvailable c.world).1) = true then
          { _connectionOpen := true
            world := env.endpointSend
              (if env.activeTestDefault = true then env.endpointPing (env.tcpAvailable c.world).2
                else (env.tcpAvailable c.world).2) data MessageType.Binary
            trace := c.trace ++ [Event.tcpAvailable]
              ++ (if env.activeTestDefault = true then [Event.endpointPing] else [])
              ++ [Event.endpointSend data MessageType.Binary] }
        else
          { _connectionOpen := false
            world := (env.tcpAvailable c.world).2
            trace := c.trace ++ [Event.tcpAvailable] } := by
  unfold WebsocketsClient.sendBinary WebsocketsClient.available
  by_cases h : (c._connectionOpen && (env.tcpAvailable c.world).1) = true
  · by_cases hd : env.activeTestDefault = true
    · simp [h, hd]
    · simp [h, hd]
  · simp only [Bool.not_eq_true] at h
    simp [h]

theorem sendRequests_append (t1 t2 : List Event) :
    sendRequests (t1 ++ t2) = sendRequests t1 ++ sendRequests t2 := by
  simp [sendRequests, List.filterMap_append]

theorem callbacks_append (t1 t2 : List Event) :
    callbacks (t1 ++ t2) = callbacks t1 ++ callbacks t2 := by
  simp [callbacks, List.filterMap_append]

/-! ## Claims about the open connection -/

/-- C12: for every client whose open flag is false, whatever the collaborators
would report, `poll()` (with any positive budget) returns after the one
availability check of its loop condition: the endpoint's `poll` and `recv` are
not called, the user callback is not invoked, no close is requested (no handler
has run), and the open flag is still false. -/
theorem c12_poll_closed (env : Collab σ) (c : WebsocketsClient σ) (fuel : Nat)
    (hclosed : c._connectionOpen = false) :
    ∃ c' : WebsocketsClient σ,
      WebsocketsClient.poll env (fuel + 1) c = some c'
      ∧ c'.trace = c.trace ++ [Event.tcpAvailable]
      ∧ endpointPolls c'.trace = endpointPolls c.trace
      ∧ received c'.trace = received c.trace
      ∧ callbacks c'.trace = callbacks c.trace
      ∧ closeRequests c'.trace = closeRequests c.trace
      ∧ c'._connectionOpen = false := by
  refine ⟨_, poll_closed env c fuel hclosed, rfl, ?_, ?_, ?_, ?_, rfl⟩
  · simp [endpointPolls, List.count_append, List.count_cons]
  · simp [received, List.count_append, List.count_cons]
  · simp [callbacks, List.filterMap_append]
  · simp [closeRequests, List.filterMap_append]

/-- C12 at a client over the mock transport that has not connected. -/
theorem c12_poll_closed_witness :
    ∃ c' : WebsocketsClient Nat,
      WebsocketsClient.poll (mockCollab statusLine sampleAccept) (0 + 1) (WebsocketsClient.new 0)
        = some c'
      ∧ c'.trace = (WebsocketsClient.new (0 : Nat)).trace ++ [Event.tcpAvailable]
      ∧ endpointPolls c'.trace = endpointPolls (WebsocketsClient.new (0 : Nat)).trace
      ∧ received c'.trace = received (WebsocketsClient.new (0 : Nat)).trace
      ∧ callbacks c'.trace = callbacks (WebsocketsClient.new (0 : Nat)).trace
      ∧ closeRequests c'.trace = closeRequests (WebsocketsClient.new (0 : Nat)).trace
      ∧ c'._connectionOpen = false :=
  c12_poll_closed (mockCollab statusLine sampleAccept) (WebsocketsClient.new 0) 0 rfl

/-- C13: handling a received Close message while the connection is open and the
transport is available sets the open flag to false and requests exactly one
endpoint-level close, with the initiator flag false; handling a second Close
message afterwards finds the flag false, asks the transport whether it is
available and does nothing else: no close is requested and the flag stays
false. -/
theorem c13_handle_close_twice (env : Collab σ) (c : WebsocketsClient σ)
    (m1 m2 : WebsocketsMessage)
    (hopen : c._connectionOpen = true) (havail : (env.tcpAvailable c.world).1 = true) :
    (c._handleClose env m1)._connectionOpen = false
    ∧ closeRequests (c._handleClose env m1).trace = closeRequests c.trace ++ [false]
    ∧ ((c._handleClose env m1)._handleClose env m2)._connectionOpen = false
    ∧ ((c._handleClose env m1)._handleClose env m2).trace
        = (c._handleClose env m1).trace ++ [Event.tcpAvailable]
    ∧ closeRequests ((c._handleClose env m1)._handleClose env m2).trace
        = closeRequests c.trace ++ [false] := by
  have hflag : (c._handleClose env m1)._connectionOpen = false := by
    rw [handleClose_eq]
    split_ifs <;> rfl
  have h1 : closeRequests (c._handleClose env m1).trace = closeRequests c.trace ++ [false] := by
    rw [handleClose_eq, hopen, havail]
    simp only [Bool.and_self, if_true, closeRequests_append]
    split_ifs <;> simp [closeRequests]
  have h2 : (c._handleClose env m1)._handleClose env m2
      = { _connectionOpen := false
          world := (env.tcpAvailable (c._handleClose env m1).world).2
          trace := (c._handleClose env m1).trace ++ [Event.tcpAvailable] } := by
    rw [handleClose_eq env (c._handleClose env m1), hflag]
    rfl
  refine ⟨hflag, h1, ?_, ?_, ?_⟩
  · rw [h2]
  · rw [h2]
  · rw [h2]
    simp only [closeRequests_append, h1]
    simp [closeRequests]

/-- C13 at an open client over the mock transport. -/
theorem c13_handle_close_twice_witness :
    ((WebsocketsClient.mk true (0 : Nat) [])._handleClose
        (mockCollab statusLine sampleAccept)
        { type := MessageType.Close, data := [] })._connectionOpen = false
    ∧ closeRequests ((WebsocketsClient.mk true (0 : Nat) [])._handleClose
        (mockCollab statusLine sampleAccept) { type := MessageType.Close, data := [] }).trace
      = closeRequests (WebsocketsClient.mk true (0 : Nat) []).trace ++ [false]
    ∧ (((WebsocketsClient.mk true (0 : Nat) [])._handleClose
        (mockCollab statusLine sampleAccept)
        { type := MessageType.Close, data := [] })._handleClose
        (mockCollab statusLine sampleAccept)
        { type := MessageType.Close, data := [] })._connectionOpen = false
    ∧ (((WebsocketsClient.mk true (0 : Nat) [])._handleClose
        (mockCollab statusLine sampleAccept)
        { type := MessageType.Close, data := [] })._handleClose
        (mockCollab statusLine sampleAccept) { type := MessageType.Close, data := [] }).trace
      = ((WebsocketsClient.mk true (0 : Nat) [])._handleClose
          (mockCollab statusLine sampleAccept)
          { type := MessageType.Close, data := [] }).trace ++ [Event.tcpAvailable]
    ∧ closeRequests (((WebsocketsClient.mk true (0 : Nat) [])._handleClose
        (mockCollab statusLine sampleAccept)
        { type := MessageType.Close, data := [] })._handleClose
        (mockCollab statusLine sampleAccept) { type := MessageType.Close, data := [] }).trace
      = closeRequests (WebsocketsClient.mk true (0 : Nat) []).trace ++ [false] :=
  c13_handle_close_twice (mockCollab statusLine sampleAccept) (WebsocketsClient.mk true 0 [])
    { type := MessageType.Close, data := [] } { type := MessageType.Close, data := [] } rfl rfl

/-- C14: for every payload, `send(data)` makes exactly one endpoint send call,
with that payload and type Text, when the connection is available (open flag
true and transport available), and none when it is not; `sendBinary(data)` does
the same with type Binary; after `close()`, from whatever state, either call makes
no endpoint send call. -/
theorem c14_send (env : Collab σ) (c : WebsocketsClient σ) (data : Str) :
    sendRequests (c.send env data).trace
      = sendRequests c.trace
        ++ (if (c._connectionOpen && (env.tcpAvailable c.world).1) = true
            then [(data, MessageType.Text)] else [])
    ∧ sendRequests (c.sendBinary env data).trace
      = sendRequests c.trace
        ++ (if (c._connectionOpen && (env.tcpAvailable c.world).1) = true
            then [(data, MessageType.Binary)] else [])
    ∧ sendRequests ((c.close env).send env data).trace = sendRequests (c.close env).trace
    ∧ sendRequests ((c.close env).sendBinary env data).trace
      = sendRequests (c.close env).trace := by
  have hsend : ∀ x : WebsocketsClient σ, sendRequests (x.send env data).trace
      = sendRequests x.trace
        ++ (if (x._connectionOpen && (env.tcpAvailable x.world).1) = true
            then [(data, MessageType.Text)] else []) := by
    intro x
    rw [send_eq]
    split_ifs <;> simp [sendRequests, List.filterMap_append]
  have hbin : ∀ x : WebsocketsClient σ, sendRequests (x.sendBinary env data).trace
      = sendRequests x.trace
        ++ (if (x._connectionOpen && (env.tcpAvailable x.world).1) = true
            then [(data, MessageType.Binary)] else []) := by
    intro x
    rw [sendBinary_eq]
    split_ifs <;> simp [sendRequests, List.filterMap_append]
  refine ⟨hsend c, hbin c, ?_, ?_⟩
  · rw [hsend, close_open_flag]
    simp
  · rw [hbin, close_open_flag]
    simp

/-- C14 in the scenario of the claim: after the successful `connect` over the mock
transport, `send("hello")` makes one Text send of `hello`, and the same call
after `close()` makes none. -/
theorem c14_send_witness :
    (WebsocketsClient.new 0).connect (mockCollab statusLine sampleAccept) 4
        "host".toList "/chat".toList 80
      = some (true, clientAfterHeaders (mockCollab statusLine sampleAccept)
          (WebsocketsClient.new 0) "host".toList "/chat".toList 80 3)
    ∧ sendRequests ((clientAfterHeaders (mockCollab statusLine sampleAccept)
          (WebsocketsClient.new 0) "host".toList "/chat".toList 80 3).send
          (mockCollab statusLine sampleAccept) "hello".toList).trace
      = [("hello".toList, MessageType.Text)]
    ∧ sendRequests (((clientAfterHeaders (mockCollab statusLine sampleAccept)
          (WebsocketsClient.new 0) "host".toList "/chat".toList 80 3).close
          (mockCollab statusLine sampleAccept)).send
          (mockCollab statusLine sampleAccept) "hello".toList).trace
      = [] :=
  ⟨by rfl,
   (c14_send (mockCollab statusLine sampleAccept)
      (clientAfterHeaders (mockCollab statusLine sampleAccept)
        (WebsocketsClient.new 0) "host".toList "/chat".toList 80 3) "hello".toList).1.trans
      (by decide),
   (c14_send (mockCollab statusLine sampleAccept)
      (clientAfterHeaders (mockCollab statusLine sampleAccept)
        (WebsocketsClient.new 0) "host".toList "/chat".toList 80 3)
      "hello".toList).2.2.1.trans (by decide)⟩

/-- C15: one iteration of `poll()` whose loop condition holds receives one message
and dispatches it by its type alone: a Text or Binary message is handed to the
user callback, once, and nothing else is called and the open flag is unchanged; a
Ping or a Pong message changes nothing at all (no callback, nothing sent, flag
unchanged); a Close message is handled by the close handler, and the user
callback is not invoked. -/
theorem c15_dispatch (env : Collab σ) (c : WebsocketsClient σ) (msg : WebsocketsMessage)
    (fuel : Nat) :
    (c._connectionOpen = true → (env.tcpAvailable c.world).1 = true →
      (env.endpointPoll (c.available env env.activeTestDefault).2.world).1 = true →
      WebsocketsClient.poll env (fuel + 1) c
        = WebsocketsClient.poll env fuel
            ((clientAfterRecv env c).dispatch env (messageReceived env c)))
    ∧ (msg.type = MessageType.Text ∨ msg.type = MessageType.Binary →
        c.dispatch env msg
          = { c with world := env.callback c.world msg
                     trace := c.trace ++ [Event.callback msg] })
    ∧ (msg.type = MessageType.Ping ∨ msg.type = MessageType.Pong → c.dispatch env msg = c)
    ∧ (msg.type = MessageType.Close →
        c.dispatch env msg = c._handleClose env msg
        ∧ callbacks (c.dispatch env msg).trace = callbacks c.trace) := by
  refine ⟨poll_step env c fuel, ?_, ?_, ?_⟩
  · intro h
    unfold WebsocketsClient.dispatch
    rcases h with h | h <;> simp [h]
  · intro h
    unfold WebsocketsClient.dispatch WebsocketsClient._handlePing WebsocketsClient._handlePong
    rcases h with h | h <;> simp [h]
  · intro h
    have hd : c.dispatch env msg = c._handleClose env msg := by
      unfold WebsocketsClient.dispatch
      simp [h]
    refine ⟨hd, ?_⟩
    rw [hd, handleClose_eq]
    split_ifs <;> simp [callbacks, List.filterMap_append]

/-- C15 at an open client over the queue mock with the one message Text `a`
ready: the iteration dispatches it, and the dispatch hands it to the callback. -/
theorem c15_dispatch_witness :
    WebsocketsClient.poll queueCollab (1 + 1)
        (WebsocketsClient.mk true [textMessage "a".toList] [])
      = WebsocketsClient.poll queueCollab 1
          ((clientAfterRecv queueCollab
              (WebsocketsClient.mk true [textMessage "a".toList] [])).dispatch queueCollab
            (messageReceived queueCollab
              (WebsocketsClient.mk true [textMessage "a".toList] [])))
    ∧ messageReceived queueCollab (WebsocketsClient.mk true [textMessage "a".toList] [])
      = textMessage "a".toList
    ∧ (WebsocketsClient.mk true [textMessage "a".toList] []).dispatch queueCollab
        (textMessage "a".toList)
      = { (WebsocketsClient.mk true [textMessage "a".toList] []) with
          world := queueCollab.callback [textMessage "a".toList] (textMessage "a".toList)
          trace := [] ++ [Event.callback (textMessage "a".toList)] } :=
  ⟨(c15_dispatch queueCollab (WebsocketsClient.mk true [textMessage "a".toList] [])
      (textMessage "a".toList) 1).1 rfl rfl rfl,
   rfl,
   (c15_dispatch queueCollab (WebsocketsClient.mk true [textMessage "a".toList] [])
      (textMessage "a".toList) 1).2.1 (Or.inl rfl)⟩

theorem applyOp_closed (env : Collab σ) (c : WebsocketsClient σ) (op : Op)
    (hclosed : c._connectionOpen = false) (hb : op.hasBudget = true) :
    ∃ c' : WebsocketsClient σ, applyOp env c op = some c' ∧ c'._connectionOpen = false := by
  cases op with
  | poll fuel =>
    cases fuel with
    | zero => exact absurd hb (by decide)
    | succ f => exact ⟨_, poll_closed env c f hclosed, rfl⟩
  | send data =>
    refine ⟨_, rfl, ?_⟩
    rw [send_eq, hclosed]
    rfl
  | sendBinary data =>
    refine ⟨_, rfl, ?_⟩
    rw [sendBinary_eq, hclosed]
    rfl
  | available activeTest =>
    refine ⟨_, rfl, ?_⟩
    rw [available_closed env c _ hclosed]
  | close => exact ⟨_, rfl, close_open_flag env c⟩
  | handleClose msg =>
    refine ⟨_, rfl, ?_⟩
    rw [handleClose_eq, hclosed]
    rfl

theorem runOps_closed (env : Collab σ) : ∀ (ops : List Op) (c : WebsocketsClient σ),
    c._connectionOpen = false → (∀ op ∈ ops, op.hasBudget = true) →
    ∃ c' : WebsocketsClient σ, runOps env ops c = some c' ∧ c'._connectionOpen = false := by
  intro ops
  induction ops with
  | nil => intro c h _; exact ⟨c, rfl, h⟩
  | cons op ops ih =>
    intro c h hb
    obtain ⟨c1, h1, hc1⟩ := applyOp_closed env c op h (hb op (List.mem_cons_self _ _))
    obtain ⟨c2, h2, hc2⟩ := ih c1 hc1 (fun x hx => hb x (List.mem_cons_of_mem _ hx))
    refine ⟨c2, ?_, hc2⟩
    simp only [runOps, h1]
    exact h2

/-- C11: the closed state is absorbing for every operation other than `connect`.
If the open flag is false, then after any sequence of `poll` (each with a positive
budget), `send`, `sendBinary`, `available` (with either probe setting), `close`
and close-message handling, under any behaviour of the collaborators, the
sequence returns and the flag is still false. In particular, once `available()`
has found the transport unavailable, the flag is false after any such sequence,
whatever the transport reports later. -/
theorem c11_closed_absorbing (env : Collab σ) (c : WebsocketsClient σ) (ops : List Op)
    (hbudget : ∀ op ∈ ops, op.hasBudget = true) :
    (c._connectionOpen = false →
      ∃ c' : WebsocketsClient σ, runOps env ops c = some c' ∧ c'._connectionOpen = false)
    ∧ (∀ activeTest : Bool, (env.tcpAvailable c.world).1 = false →
      ∃ c' : WebsocketsClient σ,
        runOps env ops (c.available env activeTest).2 = some c'
        ∧ c'._connectionOpen = false) := by
  refine ⟨fun h => runOps_closed env ops c h hbudget, ?_⟩
  intro activeTest hun
  apply runOps_closed env ops _ _ hbudget
  rw [available_eq, hun]
  simp

/-- C11 at a transport that is unavailable when first asked and available from
then on: from a closed client, and from an open client whose `available()` has
found the transport unavailable. -/
theorem c11_closed_absorbing_witness :
    (flakyCollab.tcpAvailable 0).1 = false ∧ (flakyCollab.tcpAvailable 1).1 = true
    ∧ (∃ c' : WebsocketsClient Nat,
        runOps flakyCollab sampleOps (WebsocketsClient.mk false 1 []) = some c'
        ∧ c'._connectionOpen = false)
    ∧ (∃ c' : WebsocketsClient Nat,
        runOps flakyCollab sampleOps
          ((WebsocketsClient.mk true (0 : Nat) []).available flakyCollab true).2 = some c'
        ∧ c'._connectionOpen = false) :=
  ⟨rfl, rfl,
   (c11_closed_absorbing flakyCollab (WebsocketsClient.mk false 1 []) sampleOps
      (by decide)).1 rfl,
   (c11_closed_absorbing flakyCollab (WebsocketsClient.mk true 0 []) sampleOps
      (by decide)).2 true rfl⟩

/-! ## `poll` over a queue of ready messages -/

theorem received_append (t1 t2 : List Event) :
    received (t1 ++ t2) = received t1 + received t2 := by
  simp [received, List.count_append]

theorem queue_available (env : Collab σ) (q : σ → List WebsocketsMessage)
    (hq : QueueView env q) (c : WebsocketsClient σ) (hopen : c._connectionOpen = true) :
    (c.available env env.activeTestDefault).1 = true
    ∧ (c.available env env.activeTestDefault).2._connectionOpen = true
    ∧ q (c.available env env.activeTestDefault).2.world = q c.world
    ∧ received (c.available env env.activeTestDefault).2.trace = received c.trace
    ∧ callbacks (c.available env env.activeTestDefault).2.trace = callbacks c.trace
    ∧ closeRequests (c.available env env.activeTestDefault).2.trace = closeRequests c.trace := by
  rw [available_eq, hopen, hq.available_true]
  refine ⟨rfl, rfl, ?_, ?_, ?_, ?_⟩
  · simp only
    split_ifs
    · rw [hq.ping_keeps, hq.available_keeps]
    · rw [hq.available_keeps]
  · simp only
    split_ifs <;> simp [received, List.count_append, List.count_cons]
  · simp only
    split_ifs <;> simp [callbacks, List.filterMap_append]
  · simp only
    split_ifs <;> simp [closeRequests, List.filterMap_append]

theorem queue_recv (env : Collab σ) (q : σ → List WebsocketsMessage)
    (hq : QueueView env q) (c : WebsocketsClient σ) (x : WebsocketsMessage)
    (rest : List WebsocketsMessage) (hopen : c._connectionOpen = true)
    (hqueue : q c.world = x :: rest) :
    (env.endpointPoll (c.available env env.activeTestDefault).2.world).1 = true
    ∧ messageReceived env c = x
    ∧ (clientAfterRecv env c)._connectionOpen = true
    ∧ q (clientAfterRecv env c).world = rest
    ∧ received (clientAfterRecv env c).trace = received c.trace + 1
    ∧ callbacks (clientAfterRecv env c).trace = callbacks c.trace
    ∧ closeRequests (clientAfterRecv env c).trace = closeRequests c.trace := by
  obtain ⟨_, ha2, ha3, ha4, ha5, ha6⟩ := queue_available env q hq c hopen
  have hpq : q (env.endpointPoll (c.available env env.activeTestDefault).2.world).2
      = x :: rest := by
    rw [hq.poll_keeps, ha3, hqueue]
  refine ⟨?_, ?_, ha2, ?_, ?_, ?_, ?_⟩
  · rw [hq.poll_ready, ha3, hqueue]
    rfl
  · exact hq.recv_head _ x rest hpq
  · exact hq.recv_tail _ x rest hpq
  · simp only [clientAfterRecv, received_append, ha4]
    simp [received]
  · simp only [clientAfterRecv, callbacks_append, ha5]
    simp [callbacks]
  · simp only [clientAfterRecv, closeRequests_append, ha6]
    simp [closeRequests]

theorem queue_dispatch_other (env : Collab σ) (q : σ → List WebsocketsMessage)
    (hq : QueueView env q) (c : WebsocketsClient σ) (x : WebsocketsMessage)
    (hx : x.type ≠ MessageType.Close) :
    (c.dispatch env x)._connectionOpen = c._connectionOpen
    ∧ q (c.dispatch env x).world = q c.world
    ∧ received (c.dispatch env x).trace = received c.trace
    ∧ callbacks (c.dispatch env x).trace
        = callbacks c.trace ++ (if isData x = true then [x] else [])
    ∧ closeRequests (c.dispatch env x).trace = closeRequests c.trace := by
  unfold WebsocketsClient.dispatch WebsocketsClient._handlePing WebsocketsClient._handlePong
    isData
  cases hty : x.type with
  | Text =>
    simp [hq.callback_keeps, received, callbacks, closeRequests, List.count_append,
      List.filterMap_append]
  | Binary =>
    simp [hq.callback_keeps, received, callbacks, closeRequests, List.count_append,
      List.filterMap_append]
  | Ping => simp
  | Pong => simp
  | Close => exact absurd hty hx

theorem queue_dispatch_close (env : Collab σ) (q : σ → List WebsocketsMessage)
    (hq : QueueView env q) (c : WebsocketsClient σ) (m : WebsocketsMessage)
    (hopen : c._connectionOpen = true) (hm : m.type = MessageType.Close) :
    (c.dispatch env m)._connectionOpen = false
    ∧ q (c.dispatch env m).world = q c.world
    ∧ received (c.dispatch env m).trace = received c.trace
    ∧ callbacks (c.dispatch env m).trace = callbacks c.trace
    ∧ closeRequests (c.dispatch env m).trace = closeRequests c.trace ++ [false] := by
  have hd : c.dispatch env m = c._handleClose env m := by
    unfold WebsocketsClient.dispatch
    simp [hm]
  rw [hd, handleClose_eq, hopen, hq.available_true]
  rw [if_pos (by rfl)]
  refine ⟨rfl, ?_, ?_, ?_, ?_⟩
  · simp only
    rw [hq.close_keeps]
    split_ifs
    · rw [hq.ping_keeps, hq.available_keeps]
    · rw [hq.available_keeps]
  · split_ifs <;> simp [received, List.count_append, List.count_cons]
  · split_ifs <;> simp [callbacks, List.filterMap_append]
  · split_ifs <;> simp [closeRequests, List.filterMap_append]

theorem poll_queue (env : Collab σ) (q : σ → List WebsocketsMessage) (hq : QueueView env q)
    (m : WebsocketsMessage) (post : List WebsocketsMessage) (hm : m.type = MessageType.Close) :
    ∀ (pre : List WebsocketsMessage) (c : WebsocketsClient σ) (fuel : Nat),
    c._connectionOpen = true → q c.world = pre ++ m :: post →
    (∀ x ∈ pre, x.type ≠ MessageType.Close) → pre.length + 2 ≤ fuel →
    ∃ c' : WebsocketsClient σ,
      WebsocketsClient.poll env fuel c = some c'
      ∧ c'._connectionOpen = false
      ∧ q c'.world = post
      ∧ received c'.trace = received c.trace + (pre.length + 1)
      ∧ callbacks c'.trace = callbacks c.trace ++ pre.filter isData
      ∧ closeRequests c'.trace = closeRequests c.trace ++ [false] := by
  intro pre
  induction pre with
  | nil =>
    intro c fuel hopen hqueue _ hfuel
    obtain ⟨f, rfl⟩ : ∃ f, fuel = f + 2 := ⟨fuel - 2, by simp at hfuel; omega⟩
    simp only [List.nil_append] at hqueue
    obtain ⟨hready, hmsg, ho, hqr, hr, hcb, hcl⟩ := queue_recv env q hq c m post hopen hqueue
    obtain ⟨d1, d2, d3, d4, d5⟩ := queue_dispatch_close env q hq (clientAfterRecv env c) m ho hm
    rw [poll_step env c (f + 1) hopen (hq.available_true _) hready, hmsg,
      poll_closed env _ f d1]
    refine ⟨_, rfl, rfl, ?_, ?_, ?_, ?_⟩
    · simp only
      rw [hq.available_keeps, d2, hqr]
    · simp only [received_append, d3, hr]
      simp [received]
    · simp only [callbacks_append, d4, hcb]
      simp [callbacks]
    · simp only [closeRequests_append, d5, hcl]
      simp [closeRequests]
  | cons x pre ih =>
    intro c fuel hopen hqueue hpre hfuel
    obtain ⟨f, rfl⟩ : ∃ f, fuel = f + 1 := ⟨fuel - 1, by simp at hfuel; omega⟩
    simp only [List.cons_append] at hqueue
    obtain ⟨hready, hmsg, ho, hqr, hr, hcb, hcl⟩ :=
      queue_recv env q hq c x (pre ++ m :: post) hopen hqueue
    obtain ⟨d1, d2, d3, d4, d5⟩ := queue_dispatch_other env q hq (clientAfterRecv env c) x
      (hpre x (List.mem_cons_self _ _))
    rw [poll_step env c f hopen (hq.available_true _) hready, hmsg]
    obtain ⟨c', h1, h2, h3, h4, h5, h6⟩ := ih ((clientAfterRecv env c).dispatch env x) f
      (by rw [d1, ho]) (by rw [d2, hqr])
      (fun y hy => hpre y (List.mem_cons_of_mem _ hy))
      (by simp only [List.length_cons] at hfuel; omega)
    refine ⟨c', h1, h2, h3, ?_, ?_, ?_⟩
    · rw [h4, d3, hr]
      simp only [List.length_cons]
      omega
    · rw [h5, d4, hcb, List.filter_cons]
      split_ifs <;> simp
    · rw [h6, d5, hcl]

theorem queueCollab_view : QueueView queueCollab (fun w => w) where
  available_true := fun _ => rfl
  available_keeps := fun _ => rfl
  ping_keeps := fun _ => rfl
  poll_ready := fun _ => rfl
  poll_keeps := fun _ => rfl
  recv_head := by
    intro w m ms h
    have hw : w = m :: ms := h
    rw [hw]
    rfl
  recv_tail := by
    intro w m ms h
    have hw : w = m :: ms := h
    rw [hw]
    rfl
  callback_keeps := fun _ _ => rfl
  close_keeps := fun _ _ => rfl

/-- C16: `poll()` stops at the first Close message it handles on an open
connection. For collaborators that behave as a queue of ready messages
`pre ++ m :: post` over a transport that is available throughout, where `m` is a
Close message and `pre` has none, and for every budget of at least
`pre.length + 2` iterations, `poll()` returns; it has received exactly
`pre.length + 1` messages, has handed the Text and Binary messages of `pre`, in
order, to the user callback and no message of `post`, has answered the Close with
one close request (initiator flag false), the messages of `post` are still in the
queue, and the open flag is false. -/
theorem c16_poll_stops_at_close (env : Collab σ) (q : σ → List WebsocketsMessage)
    (hq : QueueView env q) (c : WebsocketsClient σ) (pre post : List WebsocketsMessage)
    (m : WebsocketsMessage) (fuel : Nat)
    (hopen : c._connectionOpen = true)
    (hqueue : q c.world = pre ++ m :: post)
    (hpre : ∀ x ∈ pre, x.type ≠ MessageType.Close)
    (hm : m.type = MessageType.Close)
    (hfuel : pre.length + 2 ≤ fuel) :
    ∃ c' : WebsocketsClient σ,
      WebsocketsClient.poll env fuel c = some c'
      ∧ c'._connectionOpen = false
      ∧ q c'.world = post
      ∧ received c'.trace = received c.trace + (pre.length + 1)
      ∧ callbacks c'.trace = callbacks c.trace ++ pre.filter isData
      ∧ closeRequests c'.trace = closeRequests c.trace ++ [false] :=
  poll_queue env q hq m post hm pre c fuel hopen hqueue hpre hfuel

/-- C16 at the queue Text `a`, Ping, Close, Text `b`: three messages are received,
`a` alone reaches the callback, and `b` stays in the queue. -/
theorem c16_poll_stops_at_close_witness :
    ∃ c' : WebsocketsClient (List WebsocketsMessage),
      WebsocketsClient.poll queueCollab 4 (WebsocketsClient.mk true sampleQueue []) = some c'
      ∧ c'._connectionOpen = false
      ∧ c'.world = [textMessage "b".toList]
      ∧ received c'.trace = received (WebsocketsClient.mk true sampleQueue []).trace
          + ([textMessage "a".toList, { type := MessageType.Ping, data := [] }].length + 1)
      ∧ callbacks c'.trace = callbacks (WebsocketsClient.mk true sampleQueue []).trace
          ++ [textMessage "a".toList, { type := MessageType.Ping, data := [] }].filter isData
      ∧ closeRequests c'.trace
          = closeRequests (WebsocketsClient.mk true sampleQueue []).trace ++ [false] :=
  c16_poll_stops_at_close queueCollab (fun w => w) queueCollab_view
    (WebsocketsClient.mk true sampleQueue [])
    [textMessage "a".toList, { type := MessageType.Ping, data := [] }]
    [textMessage "b".toList] { type := MessageType.Close, data := [] } 4
    rfl rfl (by decide) rfl (by decide)

/-! ## Lines without a colon, and repeated headers -/

theorem behind_render (L : Str) (H : HeaderLine) :
    (H.behind L).render = L ++ crlf ++ H.render := by
  simp [HeaderLine.behind, HeaderLine.render]

theorem behind_wellFormed (L : Str) (H : HeaderLine) (hL : L.all notColon = true)
    (hH : H.wellFormed = true) : (H.behind L).wellFormed = true := by
  unfold HeaderLine.wellFormed at hH ⊢
  simp only [Bool.and_eq_true] at hH ⊢
  obtain ⟨⟨⟨hn, hv⟩, hpre⟩, hpost⟩ := hH
  refine ⟨⟨⟨?_, hv⟩, hpre⟩, hpost⟩
  simp only [HeaderLine.behind, List.all_append, Bool.and_eq_true]
  exact ⟨⟨hL, by decide⟩, hn⟩

theorem recordHeader_behind (r : Recognized) (L name value : Str) :
    recordHeader r (L ++ crlf ++ name) value = r := by
  have hcr : '\r' ∈ L ++ crlf ++ name := by simp [crlf]
  have h1 : L ++ crlf ++ name ≠ "Upgrade".toList := by
    intro h
    rw [h] at hcr
    revert hcr
    decide
  have h2 : L ++ crlf ++ name ≠ "Connection".toList := by
    intro h
    rw [h] at hcr
    revert hcr
    decide
  have h3 : L ++ crlf ++ name ≠ "Sec-WebSocket-Accept".toList := by
    intro h
    rw [h] at hcr
    revert hcr
    decide
  unfold recordHeader
  rw [if_neg h1, if_neg h2, if_neg h3]

/-- C18: a header line without a colon is consumed as part of a key and takes the
header that follows it with it. For every colon-free text `L` and every
well-formed header line `H` (a recognised one, such as `Upgrade: websocket\r\n`,
included), whatever text follows: in `L ++ "\r\n" ++ H ++ rest` the first key read
is `L ++ "\r\n" ++ name(H)`, and the first iteration leaves the result variables as
they were, so the header of `H` is not recognised; and when a well-formed block
`ls` follows, the result of `parseHandshakeResponse` is the one that the lines of
`ls` alone give. The claim's conditions that `L` is non-empty and does not begin
with whitespace are not needed. -/
theorem c18_line_without_colon (L : Str) (H : HeaderLine) (r : Recognized)
    (hL : L.all notColon = true) (hH : H.wellFormed = true) :
    (∀ rest : Str,
      (readWhile notColon (L ++ crlf ++ H.render ++ rest)
          ((L ++ crlf ++ H.render ++ rest).length - 0) 0 []).2 = L ++ crlf ++ H.name
      ∧ (parseIter (L ++ crlf ++ H.render ++ rest) (r, 0)).1 = r)
    ∧ (∀ ls : List HeaderLine, (∀ l ∈ ls, l.wellFormed = true) →
        (∀ l ∈ ls, startsWithWhitespace l.name = false) →
        parseHandshakeResponse (L ++ crlf ++ renderBlock (H :: ls))
          = (recordAll Recognized.init ls).result) := by
  have hb := behind_wellFormed L H hL hH
  constructor
  · intro rest
    have htext : L ++ crlf ++ H.render ++ rest = (H.behind L).render ++ rest := by
      rw [behind_render]
    have hiter := iterText_render (H.behind L) rest hb
    rw [htext]
    constructor
    · rw [readWhile_eq _ _ _ _ _ (le_refl _)]
      simp only [List.drop_zero, List.nil_append]
      have h1 : (iterText ((H.behind L).render ++ rest)).1 = (H.behind L).name := by
        rw [hiter]
      exact h1
    · rw [(parseIter_text _ _).1]
      simp only [List.drop_zero]
      rw [hiter]
      exact recordHeader_behind r L H.name H.value
  · intro ls hwf hlead
    have htext : L ++ crlf ++ renderBlock (H :: ls) = renderBlock (H.behind L :: ls) := by
      simp only [renderBlock, behind_render, List.append_assoc]
    rw [htext, parse_renderBlock (H.behind L :: ls)
      (fun l hl => by
        rcases List.mem_cons.mp hl with rfl | h
        · exact hb
        · exact hwf l h)
      (fun l hl => hlead l hl), recordAll_cons]
    have h2 : recordHeader Recognized.init (H.behind L).name (H.behind L).value
        = Recognized.init := recordHeader_behind _ L H.name H.value
    rw [h2]

/-- C18 at the claim's example: `garbage` in front of the three required lines
gives `isSuccess = false`. -/
theorem c18_line_without_colon_witness :
    "garbage".toList ++ crlf ++ renderBlock (requiredBlock "k".toList)
      = ("garbage\r\nUpgrade: websocket\r\nConnection: Upgrade\r\n".toList
          ++ "Sec-WebSocket-Accept: k\r\n\r\n".toList)
    ∧ (recordAll Recognized.init
        [HeaderLine.plain "Connection".toList "Upgrade".toList,
         HeaderLine.plain "Sec-WebSocket-Accept".toList "k".toList]).result
      = { isSuccess := false, serverAccept := "k".toList }
    ∧ parseHandshakeResponse
        ("garbage".toList ++ crlf ++ renderBlock (requiredBlock "k".toList))
      = (recordAll Recognized.init
          [HeaderLine.plain "Connection".toList "Upgrade".toList,
           HeaderLine.plain "Sec-WebSocket-Accept".toList "k".toList]).result
    ∧ (readWhile notColon
        ("garbage".toList ++ crlf
          ++ (HeaderLine.plain "Upgrade".toList "websocket".toList).render ++ crlf)
        (("garbage".toList ++ crlf
          ++ (HeaderLine.plain "Upgrade".toList "websocket".toList).render ++ crlf).length - 0)
        0 []).2 = "garbage".toList ++ crlf ++ "Upgrade".toList :=
  ⟨by decide, by decide,
   (c18_line_without_colon "garbage".toList
      (HeaderLine.plain "Upgrade".toList "websocket".toList)
      Recognized.init (by decide) (by decide)).2
      [HeaderLine.plain "Connection".toList "Upgrade".toList,
       HeaderLine.plain "Sec-WebSocket-Accept".toList "k".toList] (by decide) (by decide),
   ((c18_line_without_colon "garbage".toList
      (HeaderLine.plain "Upgrade".toList "websocket".toList)
      Recognized.init (by decide) (by decide)).1 crlf).1⟩

/-- C20: when a recognised header occurs more than once in a well-formed header
block (names without a colon, none after the first line beginning with
whitespace; values non-empty tokens without whitespace), only its last occurrence
decides the result: `isSuccess` is true exactly when the value of the last
`Upgrade` line is `websocket`, the value of the last `Connection` line is
`Upgrade`, and there is a `Sec-WebSocket-Accept` line; `serverAccept` is the value
of the last `Sec-WebSocket-Accept` line, or empty when there is none. -/
theorem c20_last_occurrence (ls : List HeaderLine) (hwf : ∀ l ∈ ls, l.wellFormed = true)
    (htail : ∀ l ∈ ls.tail, startsWithWhitespace l.name = false) :
    ((parseHandshakeResponse (renderBlock ls)).isSuccess = true ↔
      lastValue "Upgrade".toList ls = some "websocket".toList
      ∧ lastValue "Connection".toList ls = some "Upgrade".toList
      ∧ ∃ v, lastValue "Sec-WebSocket-Accept".toList ls = some v)
    ∧ (parseHandshakeResponse (renderBlock ls)).serverAccept
      = (lastValue "Sec-WebSocket-Accept".toList ls).getD [] := by
  rw [parse_block_lastValue ls hwf htail]
  refine ⟨?_, rfl⟩
  simp only [Bool.and_eq_true, decide_eq_true_eq]
  constructor
  · rintro ⟨⟨ha, hu⟩, hc⟩
    refine ⟨hu, hc, ?_⟩
    cases hav : lastValue "Sec-WebSocket-Accept".toList ls with
    | none => rw [hav] at ha; exact absurd rfl ha
    | some v => exact ⟨v, rfl⟩
  · rintro ⟨hu, hc, v, hv⟩
    refine ⟨⟨?_, hu⟩, hc⟩
    rw [hv]
    obtain ⟨l, hl, _, hlv⟩ := lastValue_mem _ ls v hv
    have htok := hwf l hl
    unfold HeaderLine.wellFormed at htok
    simp only [Bool.and_eq_true] at htok
    rw [← hlv]
    exact (token_parts _ htok.1.1.2).1

/-- C20 at the claim's two examples: `Upgrade: websocket` followed by `Upgrade:
h2c` gives `isSuccess = false`, and `Upgrade: h2c` followed by `Upgrade:
websocket` gives `isSuccess = true`. -/
theorem c20_last_occurrence_witness :
    (parseHandshakeResponse (renderBlock upgradeThenH2c)).isSuccess = false
    ∧ (parseHandshakeResponse (renderBlock h2cThenUpgrade)).isSuccess = true
    ∧ lastValue "Upgrade".toList upgradeThenH2c = some "h2c".toList
    ∧ lastValue "Upgrade".toList h2cThenUpgrade = some "websocket".toList
    ∧ ((parseHandshakeResponse (renderBlock upgradeThenH2c)).isSuccess = true ↔
        lastValue "Upgrade".toList upgradeThenH2c = some "websocket".toList
        ∧ lastValue "Connection".toList upgradeThenH2c = some "Upgrade".toList
        ∧ ∃ v, lastValue "Sec-WebSocket-Accept".toList upgradeThenH2c = some v)
    ∧ ((parseHandshakeResponse (renderBlock h2cThenUpgrade)).isSuccess = true ↔
        lastValue "Upgrade".toList h2cThenUpgrade = some "websocket".toList
        ∧ lastValue "Connection".toList h2cThenUpgrade = some "Upgrade".toList
        ∧ ∃ v, lastValue "Sec-WebSocket-Accept".toList h2cThenUpgrade = some v) :=
  ⟨by decide, by decide, by decide, by decide,
   (c20_last_occurrence upgradeThenH2c (by decide) (by decide)).1,
   (c20_last_occurrence h2cThenUpgrade (by decide) (by decide)).1⟩

/-! ## Totality of the tokenizer -/

theorem takeWhile_drop_length_le (p : Char → Bool) (s : Str) (idx : Nat) :
    idx + ((s.drop idx).takeWhile p).length ≤ max idx s.length := by
  have h1 : ((s.drop idx).takeWhile p).length ≤ (s.drop idx).length :=
    (List.takeWhile_sublist p).length_le
  rw [List.length_drop] at h1
  omega

theorem parseIter_le (s : Str) (st : Recognized × Nat) (h : st.2 ≤ s.length) :
    (parseIter s st).2 ≤ s.length + 1 := by
  simp only [parseIter]
  rw [readWhile_eq _ _ _ _ _ (le_refl _), skipWhile_eq _ _ _ _ (le_refl _),
    readWhile_eq _ _ _ _ _ (le_refl _), skipWhile_eq _ _ _ _ (le_refl _)]
  simp only
  have h1 := takeWhile_drop_length_le notColon s st.2
  have h2 := takeWhile_drop_length_le isWhitespace s
    (st.2 + ((s.drop st.2).takeWhile notColon).length + 1)
  have h3 := takeWhile_drop_length_le (fun ch => !isWhitespace ch) s
    (st.2 + ((s.drop st.2).takeWhile notColon).length + 1
      + ((s.drop (st.2 + ((s.drop st.2).takeWhile notColon).length + 1)).takeWhile
          isWhitespace).length)
  have h4 := takeWhile_drop_length_le isWhitespace s
    (st.2 + ((s.drop st.2).takeWhile notColon).length + 1
      + ((s.drop (st.2 + ((s.drop st.2).takeWhile notColon).length + 1)).takeWhile
          isWhitespace).length
      + ((s.drop (st.2 + ((s.drop st.2).takeWhile notColon).length + 1
          + ((s.drop (st.2 + ((s.drop st.2).takeWhile notColon).length + 1)).takeWhile
              isWhitespace).length)).takeWhile (fun ch => !isWhitespace ch)).length)
  omega

theorem parseLoop_le (s : Str) : ∀ (n : Nat) (st : Recognized × Nat),
    st.2 ≤ s.length + 1 → (parseLoop s n st).2 ≤ s.length + 1 := by
  intro n
  induction n with
  | zero => intro st h; exact h
  | succ n ih =>
    intro st h
    unfold parseLoop
    by_cases hlt : st.2 < s.length
    · rw [if_pos hlt]
      exact ih _ (parseIter_le s st (by omega))
    · rw [if_neg hlt]
      exact h

theorem loopAccesses_lt (p : Char → Bool) (s : Str) : ∀ (n idx : Nat),
    ∀ i ∈ loopAccesses p s n idx, i < s.length := by
  intro n
  induction n with
  | zero => intro idx i hi; cases hi
  | succ n ih =>
    intro idx i hi
    unfold loopAccesses at hi
    by_cases hlt : idx < s.length
    · rw [dif_pos hlt] at hi
      rcases List.mem_cons.mp hi with rfl | hi
      · exact hlt
      · by_cases hp : p (s.get ⟨idx, hlt⟩) = true
        · rw [if_pos hp] at hi
          exact ih _ i hi
        · rw [if_neg hp] at hi
          cases hi
    · rw [dif_neg hlt] at hi
      cases hi

theorem parseIterAccesses_lt (s : Str) (idx : Nat) :
    ∀ i ∈ parseIterAccesses s idx, i < s.length := by
  intro i hi
  simp only [parseIterAccesses, List.mem_append] at hi
  rcases hi with ((hi | hi) | hi) | hi <;> exact loopAccesses_lt _ s _ _ i hi

theorem parseAccesses_lt (s : Str) : ∀ (n : Nat) (st : Recognized × Nat),
    ∀ i ∈ parseAccesses s n st, i < s.length := by
  intro n
  induction n with
  | zero => intro st i hi; cases hi
  | succ n ih =>
    intro st i hi
    unfold parseAccesses at hi
    by_cases hlt : st.2 < s.length
    · rw [if_pos hlt] at hi
      rcases List.mem_append.mp hi with hi | hi
      · exact parseIterAccesses_lt s _ i hi
      · exact ih _ i hi
    · rw [if_neg hlt] at hi
      cases hi

/-- C19: `parseHandshakeResponse` is total. For every input string: every
iteration of the outer loop moves the index forward by at least one; an iteration
started below the size ends with the index at most `size + 1`, and so does the
loop as a whole; within `size` iterations the loop has ended by its own condition
(the index has reached the size), and a larger budget gives the same state; and
every character is read at an index strictly below the size. -/
theorem c19_total (s : Str) :
    (∀ st : Recognized × Nat, st.2 + 1 ≤ (parseIter s st).2)
    ∧ (∀ st : Recognized × Nat, st.2 < s.length → (parseIter s st).2 ≤ s.length + 1)
    ∧ (∀ n : Nat, (parseLoop s n (Recognized.init, 0)).2 ≤ s.length + 1)
    ∧ s.length ≤ (parseLoop s s.length (Recognized.init, 0)).2
    ∧ (∀ m : Nat, s.length ≤ m →
        parseLoop s m (Recognized.init, 0) = parseLoop s s.length (Recognized.init, 0))
    ∧ (∀ i ∈ parseAccesses s s.length (Recognized.init, 0), i < s.length) := by
  refine ⟨parseIter_advances s, ?_, ?_, ?_, ?_, parseAccesses_lt s _ _⟩
  · intro st h
    exact parseIter_le s st (by omega)
  · intro n
    exact parseLoop_le s n _ (by simp)
  · exact parseLoop_exit s s.length _ (by simp)
  · intro m hm
    exact parseLoop_fuel s s.length m _ (by simp) hm

/-- C19 at the empty string, at a string without a colon (the index ends at
`size + 1`) and at a string that ends right after a colon. -/
theorem c19_total_witness :
    (parseLoop [] 0 (Recognized.init, 0)).2 = 0
    ∧ (parseLoop "abc".toList 3 (Recognized.init, 0)).2 = 4
    ∧ (parseLoop "a:".toList 2 (Recognized.init, 0)).2 = 2
    ∧ parseAccesses "abc".toList 3 (Recognized.init, 0) = [0, 1, 2]
    ∧ (∀ i ∈ parseAccesses "abc".toList "abc".toList.length (Recognized.init, 0),
        i < "abc".toList.length)
    ∧ (∀ n : Nat, (parseLoop "a:".toList n (Recognized.init, 0)).2 ≤ "a:".toList.length + 1) :=
  ⟨by decide, by decide, by decide, by decide,
   (c19_total "abc".toList).2.2.2.2.2,
   (c19_total "a:".toList).2.2.1⟩

end websockets
